import Mathlib

/-!
# Verification of the lithos-gotmpl template engine

A shallow embedding of the `lithos-gotmpl-engine`, `lithos-gotmpl-core` and
`lithos-sprig` crates (Go `text/template` re-implementation in Rust), together
with theorems settling the frozen claims about the engine.

Modelling conventions, applied uniformly:

* `serde_json::Value` is the tagged union `Value` below.  Its ordered
  string-keyed map is an association list in insertion order (the spec
  requires an insertion-ordered map; the crate manifest selecting the
  `preserve_order` feature of `serde_json` is not part of the sources, so the
  ordered variant is modelled from the spec).  `serde_json::Number` is
  modelled by `JNum`: 64-bit signed/unsigned integers are a mathematical
  `Int` constrained to the 64-bit windows exactly where the code checks them,
  and `f64` floats are carried as exact rationals.  IEEE-754 rounding and
  digit formatting are not modelled (no claim depends on a float value);
  float-producing branches are kept structurally parallel to the source.
* Rust `Vec` stacks grow at the tail and are read through `iter().rev()`;
  here the list head is the top of the stack, so top-down traversal is plain
  list traversal.
* Error values (`error.rs`) carry a message and an optional byte span; spans
  feed diagnostics only, so the embedding keeps the kind and the message.
* Helper callables receive `&mut EvalContext` in Rust only to re-enter the
  registry (`call`); the claims under proof use helpers that never touch the
  context, so a registered function is modelled as a pure
  `List Value → Except Err Value`.
-/

set_option maxHeartbeats 1000000

namespace Gotmpl

/-! ## Errors (`error.rs`) -/

/-- The two error kinds of `Error` in `error.rs`, keeping the message and
dropping the optional diagnostic span. -/
inductive Err where
  | parse (message : String)
  | render (message : String)
deriving DecidableEq, Repr

/-! ## Values (`serde_json::Value` as consumed by `runtime.rs`) -/

/-- Model of `serde_json::Number`: `int i` covers the `i64`/`u64` integer variants
(the canonical variant is determined by the sign, so mathematical `Int`
equality matches serde's variant-wise equality); `flt` models an `f64` as an
exact rational. -/
inductive JNum where
  | int (i : Int)
  | flt (q : Rat)
deriving DecidableEq, Repr

/-- Model of `serde_json::Value` with the insertion-ordered map variant (association
list). -/
inductive Value where
  | null
  | bool (b : Bool)
  | num (n : JNum)
  | str (s : String)
  | arr (items : List Value)
  | obj (entries : List (String × Value))
deriving Repr

/-- Structural equality of values, mirroring `serde_json::Value`'s
`PartialEq` (used by `builtin_eq`). -/
def valueEq : Value → Value → Bool
  | .null, .null => true
  | .bool a, .bool b => a == b
  | .num a, .num b => a == b
  | .str a, .str b => a == b
  | .arr a, .arr b => listEq a b
  | .obj a, .obj b => objEq a b
  | _, _ => false
where
  listEq : List Value → List Value → Bool
    | [], [] => true
    | x :: xs, y :: ys => valueEq x y && listEq xs ys
    | _, _ => false
  objEq : List (String × Value) → List (String × Value) → Bool
    | [], [] => true
    | (k, x) :: xs, (l, y) :: ys => k == l && valueEq x y && objEq xs ys
    | _, _ => false

/-- Rust `str::starts_with('$')`: test of the first character. -/
def startsWithDollar (s : String) : Bool :=
  match s.data with
  | [] => false
  | c :: _ => c == '$'

/-- Model of `map.get(key)` on the ordered map: first entry with the key. -/
def mapGet (entries : List (String × Value)) (key : String) : Option Value :=
  (entries.find? (fun p => p.1 == key)).map (·.2)

/-- Model of `map.insert(key, value)` semantics of the scope maps: replace the
existing entry or add one.  Only `get`/`contains_key`/`insert` are used on
scopes, so an association list is observationally faithful. -/
def mapInsert (entries : List (String × Value)) (key : String) (value : Value) :
    List (String × Value) :=
  if entries.any (fun p => p.1 == key) then
    entries.map (fun p => if p.1 == key then (key, value) else p)
  else
    entries ++ [(key, value)]

/-- Model of `Number::as_i64`. -/
def JNum.asI64 : JNum → Option Int
  | .int i => if -(2 ^ 63) ≤ i ∧ i < 2 ^ 63 then some i else none
  | .flt _ => none

/-- Model of `Number::as_u64`. -/
def JNum.asU64 : JNum → Option Int
  | .int i => if 0 ≤ i ∧ i < 2 ^ 64 then some i else none
  | .flt _ => none

/-- Model of `Number::as_f64` (integers convert; exact in this model). -/
def JNum.asF64 : JNum → Option Rat
  | .int i => some (i : Rat)
  | .flt q => some q

/-- Display of an `f64` (`Number::to_string` / Rust `{}` formatting).  The
digit string of an IEEE-754 double is not representable here; the value is
kept exact and printed schematically.  No claim depends on this string. -/
def fltToString (q : Rat) : String :=
  if q.den = 1 then toString q.num else toString q.num ++ "/" ++ toString q.den

/-- serde's JSON string escaping (compact encoding). -/
def jsonEscape (s : String) : String :=
  s.data.foldl (fun acc c =>
    acc ++ (if c = '"' then "\\\""
      else if c = '\\' then "\\\\"
      else if c = '\n' then "\\n"
      else if c = '\r' then "\\r"
      else if c = '\t' then "\\t"
      else if c.toNat < 0x20 then "\\u00" ++
        (Nat.toDigits 16 c.toNat).asString
      else String.singleton c)) ""

/-- Model of `serde_json::to_string`: compact JSON encoding, used by
`value_to_string` for arrays and maps. -/
def jsonEncode : Value → String
  | .null => "null"
  | .bool b => toString b
  | .num (.int i) => toString i
  | .num (.flt q) => fltToString q
  | .str s => "\"" ++ jsonEscape s ++ "\""
  | .arr items => "[" ++ jsonEncodeList items ++ "]"
  | .obj entries => "\x7b" ++ jsonEncodeObj entries ++ "\x7d"
where
  jsonEncodeList : List Value → String
    | [] => ""
    | [x] => jsonEncode x
    | x :: xs => jsonEncode x ++ "," ++ jsonEncodeList xs
  jsonEncodeObj : List (String × Value) → String
    | [] => ""
    | [(k, v)] => "\"" ++ jsonEscape k ++ "\":" ++ jsonEncode v
    | (k, v) :: xs =>
        "\"" ++ jsonEscape k ++ "\":" ++ jsonEncode v ++ "," ++ jsonEncodeObj xs

/-- Model of `value_to_string` (`runtime.rs`). -/
def valueToString : Value → String
  | .null => ""
  | .bool b => toString b
  | .num n =>
      match n.asI64 with
      | some i => toString i
      | none =>
          match n.asU64 with
          | some u => toString u
          | none =>
              match n with
              | .int i => toString i
              | .flt q => fltToString q
  | .str s => s
  | .arr items => jsonEncode (.arr items)
  | .obj entries => jsonEncode (.obj entries)

/-- Model of `is_truthy` (`runtime.rs`). -/
def isTruthy : Value → Bool
  | .null => false
  | .bool b => b
  | .num (.int i) => i != 0
  | .num (.flt q) => q != 0
  | .str s => !s.data.isEmpty
  | .arr items => !items.isEmpty
  | .obj entries => !entries.isEmpty

/-- Model of `is_empty` (`runtime.rs`). -/
def isEmptyValue : Value → Bool
  | .null => true
  | .bool b => !b
  | .num (.int i) => i == 0
  | .num (.flt q) => q == 0
  | .str s => s.data.isEmpty
  | .arr items => allEmpty items
  | .obj entries => entries.isEmpty
where
  allEmpty : List Value → Bool
    | [] => true
    | x :: xs => isEmptyValue x && allEmpty xs

/-- Model of `coerce_number` (`runtime.rs`): numbers widen to `f64`, strings are
parsed, anything else is a render error. -/
def coerceNumber (value : Value) : Except Err Rat :=
  match value with
  | .num n =>
      match n.asF64 with
      | some q => .ok q
      | none => .error (.render "expected numeric value for comparison")
  | .str s =>
      match parseF64 s with
      | some q => .ok q
      | none => .error (.render "cannot convert string to number")
  | _ => .error (.render "expected numeric value for comparison")
where
  /-- Rust `str::parse::<f64>` on the grammar the engine feeds it: optional
  sign, decimal digits with optional fraction and exponent.  The numeric
  value is exact (no IEEE rounding). -/
  parseF64 (s : String) : Option Rat :=
    let chars := s.data
    let (sign, rest) :=
      match chars with
      | '-' :: r => ((-1 : Int), r)
      | '+' :: r => ((1 : Int), r)
      | r => ((1 : Int), r)
    let intPart := rest.takeWhile Char.isDigit
    let rest₁ := rest.dropWhile Char.isDigit
    let (fracPart, rest₂) :=
      match rest₁ with
      | '.' :: r => (r.takeWhile Char.isDigit, r.dropWhile Char.isDigit)
      | r => ([], r)
    let (expOk, expVal, rest₃) :=
      match rest₂ with
      | 'e' :: r | 'E' :: r =>
          let (esign, er) :=
            match r with
            | '-' :: t => ((-1 : Int), t)
            | '+' :: t => ((1 : Int), t)
            | t => ((1 : Int), t)
          let eDigits := er.takeWhile Char.isDigit
          (!eDigits.isEmpty, esign * (digitsToNat eDigits : Int),
            er.dropWhile Char.isDigit)
      | r => (true, 0, r)
    if intPart.isEmpty && fracPart.isEmpty then none
    else if !rest₃.isEmpty then none
    else if !expOk then none
    else
      let mantissa : Rat :=
        (digitsToNat intPart : Rat) +
          (digitsToNat fracPart : Rat) / ((10 : Rat) ^ fracPart.length)
      some ((sign : Rat) * mantissa * (10 : Rat) ^ (expVal : Int))
  digitsToNat (digits : List Char) : Nat :=
    digits.foldl (fun acc c => acc * 10 + (c.toNat - '0'.toNat)) 0

/-- Rust `str::parse::<i64>`: optional sign, digits, 64-bit signed window. -/
def parseI64 (s : String) : Option Int :=
  let chars := s.data
  let (sign, digits) :=
    match chars with
    | '-' :: r => ((-1 : Int), r)
    | '+' :: r => ((1 : Int), r)
    | r => ((1 : Int), r)
  if digits.isEmpty ∨ ¬digits.all Char.isDigit then none
  else
    let n : Int := sign * (digits.foldl (fun acc c => acc * 10 + (c.toNat - '0'.toNat)) 0 : Nat)
    if -(2 ^ 63) ≤ n ∧ n < 2 ^ 63 then some n else none

/-- Rust `str::parse::<u64>`: optional `+`, digits, 64-bit unsigned window. -/
def parseU64 (s : String) : Option Int :=
  let chars := s.data
  let digits :=
    match chars with
    | '+' :: r => r
    | r => r
  if digits.isEmpty ∨ ¬digits.all Char.isDigit then none
  else
    let n : Int := (digits.foldl (fun acc c => acc * 10 + (c.toNat - '0'.toNat)) 0 : Nat)
    if n < 2 ^ 64 then some n else none

/-- Rust `str::parse::<usize>` (64-bit target): optional `+`, digits only,
value at most `2^64 - 1`. -/
def parseUsize (s : String) : Option Nat :=
  let chars := s.data
  let digits :=
    match chars with
    | '+' :: r => r
    | r => r
  if digits.isEmpty ∨ ¬digits.all Char.isDigit then none
  else
    let n : Nat := digits.foldl (fun acc c => acc * 10 + (c.toNat - '0'.toNat)) 0
    if n < 2 ^ 64 then some n else none

/-- Model of `parse_number` (`runtime.rs`): integer parse when no `.`/`e`/`E` is
present, else `f64`. -/
def parseNumber (text : String) : Option JNum :=
  if ¬(text.data.any (fun c => c = '.' ∨ c = 'e' ∨ c = 'E')) then
    match parseI64 text with
    | some i => some (.int i)
    | none =>
        match parseU64 text with
        | some u => some (.int u)
        | none => (coerceNumber.parseF64 text).map .flt
  else
    (coerceNumber.parseF64 text).map .flt

/-! ## AST (`ast.rs`)

Spans, the stored raw action source and the stored token lists feed
diagnostics and the pretty-printer only; evaluation never reads them, so the
embedding keeps the semantic fields. -/

/-- Model of `BindingKind`. -/
inductive BindingKind where
  | declare
  | assign
deriving DecidableEq, Repr

/-- Model of `PipelineDeclarations`. -/
structure PipelineDeclarations where
  kind : BindingKind
  vars : List String
deriving Repr

mutual
/-- Model of `Expression` (`ast.rs`); `Variable` is `var` (`variable` is reserved
in Lean). -/
inductive Expression where
  | identifier (name : String)
  | field (parts : List String)
  | var (name : String)
  | pipelineExpr (pipeline : Pipeline)
  | stringLiteral (value : String)
  | numberLiteral (text : String)
  | boolLiteral (flag : Bool)
  | nil

/-- Model of `Command`. -/
inductive Command where
  | mk (target : Expression) (args : List Expression)

/-- Model of `Pipeline`. -/
inductive Pipeline where
  | mk (declarations : Option PipelineDeclarations) (commands : List Command)
end

/-- Model of `Command::target`. -/
def Command.target : Command → Expression
  | .mk t _ => t

/-- Model of `Command::args`. -/
def Command.args : Command → List Expression
  | .mk _ a => a

/-- Model of `Pipeline::declarations`. -/
def Pipeline.declarations : Pipeline → Option PipelineDeclarations
  | .mk d _ => d

/-- Model of `Pipeline::commands`. -/
def Pipeline.commands : Pipeline → List Command
  | .mk _ c => c

mutual
/-- The node kinds of `Node` (`ast.rs`): text, comment, action, and the
three control nodes (`IfNode` with its `else_if_branches`, `RangeNode`,
`WithNode`). -/
inductive Node where
  | text (text : String)
  | comment (text : String)
  | action (pipeline : Pipeline)
  | ifNode (pipeline : Pipeline) (thenBlock : Block)
      (elseIfBranches : List ElseIfBranch) (elseBlock : Option Block)
  | rangeNode (pipeline : Pipeline) (thenBlock : Block) (elseBlock : Option Block)
  | withNode (pipeline : Pipeline) (thenBlock : Block) (elseBlock : Option Block)

/-- Model of `ElseIfBranch`. -/
inductive ElseIfBranch where
  | mk (pipeline : Pipeline) (block : Block)

/-- Model of `Block`. -/
inductive Block where
  | mk (nodes : List Node)
end

/-- Model of `ElseIfBranch::pipeline`. -/
def ElseIfBranch.pipeline : ElseIfBranch → Pipeline
  | .mk p _ => p

/-- Model of `ElseIfBranch::block`. -/
def ElseIfBranch.block : ElseIfBranch → Block
  | .mk _ b => b

/-- Model of `Block::nodes`. -/
def Block.nodes : Block → List Node
  | .mk ns => ns

/-! ## Lexer tokens (`lexer.rs`), as far as `classify_action` consumes them -/

/-- Model of `Operator`. -/
inductive Operator where
  | equal | notEqual | less | lessOrEqual | greater | greaterOrEqual
deriving DecidableEq, Repr

/-- Model of `Keyword`. -/
inductive Keyword where
  | ifKw | elseKw | endKw | rangeKw | withKw | nilKw | trueKw | falseKw
deriving DecidableEq, Repr

/-- Model of `TokenKind`; token spans feed error spans only and are dropped with
them. -/
inductive TokenKind where
  | identifier (name : String)
  | stringLiteral (value : String)
  | numberLiteral (value : String)
  | dot | pipe | colon | assign | declare | comma
  | leftParen | rightParen | leftBracket | rightBracket
  | operator (op : Operator)
  | keyword (kw : Keyword)
deriving DecidableEq, Repr

/-- Model of `ActionKind` (`parser.rs`). -/
inductive ActionKind where
  | ifAction | rangeAction | withAction | elseAction | endAction | regular
deriving DecidableEq, Repr

/-- Model of `classify_action` (`parser.rs`): dispatch on the first token of an
action body.  Any token after `else` — `else if <pipeline>` included — is a
parse error `else-if is not yet supported`. -/
def classifyAction (tokens : List TokenKind) : Except Err ActionKind :=
  match tokens.head? with
  | none => .error (.parse "empty action")
  | some first =>
      match first with
      | .keyword .ifKw =>
          if tokens.length < 2 then .error (.parse "if requires a pipeline")
          else .ok .ifAction
      | .keyword .rangeKw =>
          if tokens.length < 2 then .error (.parse "range requires a pipeline")
          else .ok .rangeAction
      | .keyword .withKw =>
          if tokens.length < 2 then .error (.parse "with requires a pipeline")
          else .ok .withAction
      | .keyword .elseKw =>
          if tokens.length > 1 then .error (.parse "else-if is not yet supported")
          else .ok .elseAction
      | .keyword .endKw =>
          if tokens.length > 1 then .error (.parse "unexpected tokens after end")
          else .ok .endAction
      | _ => .ok .regular

/-! ## Helper registry and evaluation context (`runtime.rs`) -/

/-- The helper signature `Fn(&mut EvalContext, &[Value]) -> Result<Value, Error>`,
restricted to helpers that do not touch the context (see the module
comment). -/
abbrev Func : Type := List Value → Except Err Value

/-- Model of `FunctionRegistry`: a frozen name → callable map. -/
structure FunctionRegistry where
  map : List (String × Func)

/-- Model of `FunctionRegistry::empty`. -/
def FunctionRegistry.empty : FunctionRegistry := ⟨[]⟩

/-- Model of `FunctionRegistry::get`. -/
def FunctionRegistry.get (r : FunctionRegistry) (name : String) : Option Func :=
  (r.map.find? (fun p => p.1 == name)).map (·.2)

/-- A variable scope: `HashMap<String, Value>` observed through
`get`/`contains_key`/`insert` (association list). -/
abbrev Scope : Type := List (String × Value)

/-- Model of `EvalContext`; both stacks keep the innermost element at the list
head. -/
structure EvalContext where
  stack : List Value
  root : Value
  vars : List Scope
  functions : FunctionRegistry

/-- Model of `EvalContext::new`. -/
def EvalContext.new (data : Value) (functions : FunctionRegistry) : EvalContext :=
  { stack := [data]
    root := data
    vars := [[("$", data)]]
    functions }

/-- Model of `EvalContext::new_scope`: a fresh variable scope holding `$ = root`. -/
def EvalContext.newScope (ctx : EvalContext) : Scope :=
  [("$", ctx.root)]

/-- Model of `EvalContext::push_scope`. -/
def EvalContext.pushScope (ctx : EvalContext) (value : Value) : EvalContext :=
  { ctx with
      stack := value :: ctx.stack
      vars := ctx.newScope :: ctx.vars }

/-- Model of `EvalContext::pop_scope`: never removes the bottom element of either
stack. -/
def EvalContext.popScope (ctx : EvalContext) : EvalContext :=
  { ctx with
      stack := if ctx.stack.length > 1 then ctx.stack.tail else ctx.stack
      vars :=
        if ctx.vars.length > 1 then ctx.vars.tail else ctx.vars }

/-- Model of `EvalContext::resolve_identifier`: walk the dot-scope stack top-down and
return the first map entry for the name; null when absent. -/
def resolveIdentifier (stack : List Value) (name : String) : Value :=
  match stack with
  | [] => .null
  | value :: rest =>
      match value with
      | .obj map =>
          match mapGet map name with
          | some found => found
          | none => resolveIdentifier rest name
      | _ => resolveIdentifier rest name

/-- Model of `EvalContext::resolve_variable`: `$` is the root datum; otherwise the
first scope (innermost outward) defining the name; null when absent. -/
def resolveVariable (ctx : EvalContext) (name : String) : Value :=
  if name = "$" then ctx.root
  else
    match ctx.vars.find? (fun scope => scope.any (fun p => p.1 == name)) with
    | some scope => (mapGet scope name).getD .null
    | none => .null

/-- Model of `EvalContext::project_field_segment`. -/
def projectFieldSegment (value : Value) (part : String) : Except Err Value :=
  match value with
  | .obj map => .ok ((mapGet map part).getD .null)
  | .arr list =>
      match parseUsize part with
      | some index => .ok ((list.get? index).getD .null)
      | none => .error (.render ("array index must be integer, got " ++ part))
  | _ => .error (.render ("cannot access field " ++ part ++ " on non-container value"))

/-- Fold of `project_field_segment` over the remaining path segments. -/
def projectFieldPath (value : Value) (parts : List String) : Except Err Value :=
  match parts with
  | [] => .ok value
  | part :: rest => do
      let v ← projectFieldSegment value part
      projectFieldPath v rest

/-- Model of `EvalContext::resolve_field`. -/
def resolveField (ctx : EvalContext) (parts : List String) : Except Err Value :=
  match parts with
  | [] =>
      match ctx.stack.head? with
      | some top => .ok top
      | none => .error (.render "dot resolution failed")
  | first :: rest =>
      if startsWithDollar first then
        projectFieldPath (resolveVariable ctx first) rest
      else
        match ctx.stack.head? with
        | some top => projectFieldPath top parts
        | none => .error (.render "dot resolution failed")

/-- Model of `EvalContext::set_variable` on the variable-scope stack.  `Declare`
inserts into the innermost scope; `Assign` updates the nearest scope that
already contains the name, erroring when none does.  (The Rust code's
`.expect("scope stack is non-empty")` panic on an empty stack — unreachable,
see the stack invariant — is modelled as an error of the same text.) -/
def setVariableIn (scopes : List Scope) (name : String) (kind : BindingKind)
    (value : Value) : Except Err (List Scope) :=
  if name = "$" then .error (.render "cannot assign to root variable")
  else
    match kind with
    | .declare =>
        match scopes with
        | innermost :: rest => .ok (mapInsert innermost name value :: rest)
        | [] => .error (.render "scope stack is non-empty")
    | .assign =>
        match scopes with
        | [] => .error (.render ("variable " ++ name ++ " not defined"))
        | scope :: rest =>
            if scope.any (fun p => p.1 == name) then
              .ok (mapInsert scope name value :: rest)
            else do
              let updated ← setVariableIn rest name kind value
              .ok (scope :: updated)

/-- Model of `EvalContext::set_variable`. -/
def EvalContext.setVariable (ctx : EvalContext) (name : String)
    (kind : BindingKind) (value : Value) : Except Err EvalContext := do
  let updated ← setVariableIn ctx.vars name kind value
  .ok { ctx with vars := updated }

/-- Model of `EvalContext::apply_bindings`. -/
def applyBindings (ctx : EvalContext) (pipeline : Pipeline) (value : Value) :
    Except Err EvalContext :=
  match pipeline.declarations with
  | none => .ok ctx
  | some decls =>
      match decls.vars with
      | [] => .ok ctx
      | [single] => ctx.setVariable single decls.kind value
      | names =>
          match value with
          | .arr items => bindPositional ctx decls.kind names items 0
          | _ => bindAll ctx decls.kind names value
where
  bindPositional (ctx : EvalContext) (kind : BindingKind) (names : List String)
      (items : List Value) (idx : Nat) : Except Err EvalContext :=
    match names with
    | [] => .ok ctx
    | name :: rest => do
        let assigned := (items.get? idx).getD .null
        let ctx' ← ctx.setVariable name kind assigned
        bindPositional ctx' kind rest items (idx + 1)
  bindAll (ctx : EvalContext) (kind : BindingKind) (names : List String)
      (value : Value) : Except Err EvalContext :=
    match names with
    | [] => .ok ctx
    | name :: rest => do
        let ctx' ← ctx.setVariable name kind value
        bindAll ctx' kind rest value

/-- Model of `EvalContext::predeclare_bindings`: `:=`-declared range variables are
seeded as null in the innermost scope (no-op if already present). -/
def predeclareBindings (ctx : EvalContext) (pipeline : Pipeline) : EvalContext :=
  match pipeline.declarations with
  | some decls =>
      if decls.kind = .declare then
        match ctx.vars with
        | innermost :: rest =>
            let seeded := decls.vars.foldl
              (fun scope name =>
                if scope.any (fun p => p.1 == name) then scope
                else scope ++ [(name, .null)]) innermost
            { ctx with vars := seeded :: rest }
        | [] => ctx
      else ctx
  | none => ctx

/-- Model of `EvalContext::assign_range_bindings`. -/
def assignRangeBindings (ctx : EvalContext) (pipeline : Pipeline)
    (key : Option Value) (value : Value) : Except Err EvalContext :=
  match pipeline.declarations with
  | none => .ok ctx
  | some decls =>
      match decls.vars with
      | [] => .ok ctx
      | [single] => ctx.setVariable single decls.kind value
      | first :: second :: _ => do
          let keyValue := key.getD .null
          let ctx' ← ctx.setVariable first decls.kind keyValue
          ctx'.setVariable second decls.kind value

/-! ## Pipeline evaluation (`runtime.rs`) — read-only on the context -/

/-- Model of `CommandResolution` (`runtime.rs`). -/
inductive CommandResolution where
  | function (func : Func)
  | identifierRes (name : String)
  | expression

/-- Model of `EvalContext::resolve_command_target`. -/
def resolveCommandTarget (ctx : EvalContext) (command : Command) :
    CommandResolution :=
  match command.target with
  | .identifier name =>
      match ctx.functions.get name with
      | some func => .function func
      | none => .identifierRes name
  | _ => .expression

mutual
/-- Model of `EvalContext::eval_expression`. -/
def evalExpression (ctx : EvalContext) (expr : Expression) : Except Err Value :=
  match expr with
  | .identifier name => .ok (resolveIdentifier ctx.stack name)
  | .field parts => resolveField ctx parts
  | .var name => .ok (resolveVariable ctx name)
  | .pipelineExpr pipeline =>
      if pipeline.declarations.isSome then
        .error (.render "pipeline declarations not allowed in expression")
      else evalPipeline ctx pipeline
  | .stringLiteral value => .ok (.str value)
  | .numberLiteral text =>
      match parseNumber text with
      | some n => .ok (.num n)
      | none => .error (.render ("invalid number literal " ++ text))
  | .boolLiteral flag => .ok (.bool flag)
  | .nil => .ok .null
termination_by (sizeOf expr, 0)

/-- Argument evaluation loop of `EvalContext::prepare_command_args`
(function case). -/
def evalArgs (ctx : EvalContext) (exprs : List Expression) :
    Except Err (List Value) :=
  match exprs with
  | [] => .ok []
  | expr :: rest => do
      let v ← evalExpression ctx expr
      let vs ← evalArgs ctx rest
      .ok (v :: vs)
termination_by (sizeOf exprs, 0)

/-- Model of `EvalContext::eval_command` (resolution, `prepare_command_args` and
`execute_prepared_command` fused in evaluation order). -/
def evalCommand (ctx : EvalContext) (command : Command) (input : Option Value) :
    Except Err Value :=
  match command with
  | .mk target args =>
      match resolveCommandTarget ctx (.mk target args) with
      | .function func => do
          let vals ← evalArgs ctx args
          let vals := match input with
            | some prev => vals ++ [prev]
            | none => vals
          func vals
      | .identifierRes name =>
          if !args.isEmpty || input.isSome then
            .error (.render ("unknown function \"" ++ name ++ "\""))
          else evalExpression ctx target
      | .expression =>
          if !args.isEmpty then
            .error (.render "arguments supplied to non-function expression")
          else if input.isSome then
            .error (.render "cannot pipe value into non-function expression")
          else evalExpression ctx target
termination_by (sizeOf command, 0)

/-- The fold of `eval_pipeline` over the commands after the first: each
command receives the previous result as piped input. -/
def evalCommandsFrom (ctx : EvalContext) (commands : List Command)
    (value : Value) : Except Err Value :=
  match commands with
  | [] => .ok value
  | command :: rest => do
      let v ← evalCommand ctx command (some value)
      evalCommandsFrom ctx rest v
termination_by (sizeOf commands, 0)

/-- Model of `EvalContext::eval_pipeline`. -/
def evalPipeline (ctx : EvalContext) (pipeline : Pipeline) : Except Err Value :=
  match pipeline with
  | .mk _ [] => .error (.render "empty pipeline")
  | .mk _ (first :: rest) => do
      let value ← evalCommand ctx first none
      evalCommandsFrom ctx rest value
termination_by (sizeOf pipeline, 1)
decreasing_by
  all_goals simp_wf
  all_goals omega
end

/-! ## Rendering (`lib.rs`) — threads the context and the output string -/

mutual
/-- Model of `Template::render_block`. -/
def renderBlock (ctx : EvalContext) (block : Block) (output : String) :
    Except Err (EvalContext × String) :=
  match block with
  | .mk nodes => renderNodes ctx nodes output
termination_by (sizeOf block, 0)

/-- The node loop of `Template::render_block`. -/
def renderNodes (ctx : EvalContext) (nodes : List Node) (output : String) :
    Except Err (EvalContext × String) :=
  match nodes with
  | [] => .ok (ctx, output)
  | node :: rest => do
      let (ctx', out') ← renderNode ctx node output
      renderNodes ctx' rest out'
termination_by (sizeOf nodes, 0)

/-- Dispatch of `Template::render_block` on one node (text, comment,
action, `render_if`, `render_range`, `render_with`). -/
def renderNode (ctx : EvalContext) (node : Node) (output : String) :
    Except Err (EvalContext × String) :=
  match node with
  | .text t => .ok (ctx, output ++ t)
  | .comment _ => .ok (ctx, output)
  | .action pipeline => do
      let value ← evalPipeline ctx pipeline
      let ctx' ← applyBindings ctx pipeline value
      if pipeline.declarations.isNone then
        .ok (ctx', output ++ valueToString value)
      else
        .ok (ctx', output)
  | .ifNode pipeline thenBlock elseIfBranches elseBlock => do
      let value ← evalPipeline ctx pipeline
      let ctx' ← applyBindings ctx pipeline value
      if isTruthy value then
        renderBlock ctx' thenBlock output
      else
        renderElseIfBranches ctx' elseIfBranches elseBlock output
  | .rangeNode pipeline thenBlock elseBlock =>
      let ctx := predeclareBindings ctx pipeline
      (do
        let value ← evalPipeline ctx pipeline
        match value with
        | .arr items =>
            if items.isEmpty then renderRangeElse ctx pipeline elseBlock output
            else renderArrayItems ctx pipeline thenBlock items 0 output
        | .obj entries =>
            if entries.isEmpty then renderRangeElse ctx pipeline elseBlock output
            else renderObjEntries ctx pipeline thenBlock entries output
        | _ => renderRangeElse ctx pipeline elseBlock output)
  | .withNode pipeline thenBlock elseBlock => do
      let value ← evalPipeline ctx pipeline
      let ctx' ← applyBindings ctx pipeline value
      if isTruthy value then do
        let (ctx'', out') ← renderBlock (ctx'.pushScope value) thenBlock output
        .ok (ctx''.popScope, out')
      else
        match elseBlock with
        | some block => renderBlock ctx' block output
        | none => .ok (ctx', output)
termination_by (sizeOf node, 0)

/-- The `else_if_branches` loop of `Template::render_if`: try each branch
pipeline in order, rendering the first truthy branch; fall through to the
`else` block. -/
def renderElseIfBranches (ctx : EvalContext) (branches : List ElseIfBranch)
    (elseBlock : Option Block) (output : String) :
    Except Err (EvalContext × String) :=
  match branches with
  | [] =>
      match elseBlock with
      | some block => renderBlock ctx block output
      | none => .ok (ctx, output)
  | .mk branchPipeline branchBlock :: rest => do
      let branchValue ← evalPipeline ctx branchPipeline
      let ctx' ← applyBindings ctx branchPipeline branchValue
      if isTruthy branchValue then
        renderBlock ctx' branchBlock output
      else
        renderElseIfBranches ctx' rest elseBlock output
termination_by (sizeOf branches + sizeOf elseBlock, 0)

/-- The not-iterated tail of `Template::render_range`: re-assign declared
names to null, then render the `else` block if any. -/
def renderRangeElse (ctx : EvalContext) (pipeline : Pipeline)
    (elseBlock : Option Block) (output : String) :
    Except Err (EvalContext × String) := do
  let ctx' ← assignRangeBindings ctx pipeline none .null
  match elseBlock with
  | some block => renderBlock ctx' block output
  | none => .ok (ctx', output)
termination_by (sizeOf elseBlock, 0)

/-- The array loop of `Template::render_range`: per element, assign the
`(index, item)` bindings, push the item as the new dot, render the then
block, pop. -/
def renderArrayItems (ctx : EvalContext) (pipeline : Pipeline)
    (thenBlock : Block) (items : List Value) (index : Nat) (output : String) :
    Except Err (EvalContext × String) :=
  match items with
  | [] => .ok (ctx, output)
  | item :: rest => do
      let ctx' ← assignRangeBindings ctx pipeline
        (some (.num (.int index))) item
      let (ctx'', out') ← renderBlock (ctx'.pushScope item) thenBlock output
      renderArrayItems ctx''.popScope pipeline thenBlock rest (index + 1) out'
termination_by (sizeOf thenBlock, sizeOf items)

/-- The map loop of `Template::render_range`: per entry in insertion
order, assign the `(key, value)` bindings, push the value as the new dot,
render the then block, pop. -/
def renderObjEntries (ctx : EvalContext) (pipeline : Pipeline)
    (thenBlock : Block) (entries : List (String × Value)) (output : String) :
    Except Err (EvalContext × String) :=
  match entries with
  | [] => .ok (ctx, output)
  | (key, val) :: rest => do
      let ctx' ← assignRangeBindings ctx pipeline (some (.str key)) val
      let (ctx'', out') ← renderBlock (ctx'.pushScope val) thenBlock output
      renderObjEntries ctx''.popScope pipeline thenBlock rest out'
termination_by (sizeOf thenBlock, sizeOf entries)
end

/-- Model of `Template` (`lib.rs`): parsed AST root plus the associated registry.
`name` and `source` are diagnostic labels; rendering never reads them. -/
structure Template where
  name : String
  source : String
  ast : Block
  functions : FunctionRegistry

/-- Model of `Template::render`. -/
def Template.render (t : Template) (data : Value) : Except Err String := do
  let ctx := EvalContext.new data t.functions
  let (_, output) ← renderBlock ctx t.ast ""
  .ok output

/-! ## Stock helpers (`lithos-gotmpl-core/src/lib.rs`) -/

/-- Model of `Value::as_bool`. -/
def Value.asBool : Value → Option Bool
  | .bool b => some b
  | _ => none

/-- Model of `Value::as_str`. -/
def Value.asStr : Value → Option String
  | .str s => some s
  | _ => none

/-- Model of `Value::as_i64`. -/
def Value.asI64 : Value → Option Int
  | .num n => n.asI64
  | _ => none

/-- Model of `Value::as_u64`. -/
def Value.asU64 : Value → Option Int
  | .num n => n.asU64
  | _ => none

/-- Model of `Value::as_f64`. -/
def Value.asF64 : Value → Option Rat
  | .num n => n.asF64
  | _ => none

/-- Model of `builtin_eq`: errors on fewer than two arguments, otherwise compares the
first two (extra arguments are ignored). -/
def builtinEq (args : List Value) : Except Err Value :=
  match args with
  | a :: b :: _ => .ok (.bool (valueEq a b))
  | _ => .error (.render "eq expects two arguments")

/-- Model of `builtin_ne`: negates `builtin_eq`'s boolean (an error propagates
unchanged, message included). -/
def builtinNe (args : List Value) : Except Err Value :=
  (builtinEq args).map fun v => .bool (!(v.asBool.getD false))

/-- Rust `str::parse::<i128>`: optional sign, digits, 128-bit signed
window. -/
def parseI128 (s : String) : Option Int :=
  let chars := s.data
  let (sign, digits) :=
    match chars with
    | '-' :: r => ((-1 : Int), r)
    | '+' :: r => ((1 : Int), r)
    | r => ((1 : Int), r)
  if digits.isEmpty ∨ ¬digits.all Char.isDigit then none
  else
    let n : Int := sign *
      (digits.foldl (fun acc c => acc * 10 + (c.toNat - '0'.toNat)) 0 : Nat)
    if -(2 ^ 127) ≤ n ∧ n < 2 ^ 127 then some n else none

/-- Model of `format_integer` (`%d`-family); the trailing `coerce_number` path keeps
the "integral float" test (`fract() == 0.0` is denominator one in the exact
model). -/
def formatInteger (value : Value) : Except Err String :=
  match value.asI64 with
  | some i => .ok (toString i)
  | none =>
      match value.asU64 with
      | some u => .ok (toString u)
      | none =>
          match value.asStr with
          | some s =>
              match parseI128 s with
              | some parsed => .ok (toString parsed)
              | none => formatIntegerCoerced value
          | none => formatIntegerCoerced value
where
  formatIntegerCoerced (value : Value) : Except Err String := do
    let coerced ← coerceNumber value
    if coerced.den = 1 then .ok (toString coerced.num)
    else .ok (fltToString coerced)

/-- Model of `trim_trailing_zeros` composed with Rust float display; in the exact
model the value prints without trailing zeros already. -/
def trimTrailingZeros (value : Rat) : String :=
  fltToString value

/-- Model of `format_float` (`%f`-family). -/
def formatFloat (value : Value) : Except Err String :=
  match value.asF64 with
  | some f => .ok (trimTrailingZeros f)
  | none =>
      match value.asI64 with
      | some i => .ok (trimTrailingZeros (i : Rat))
      | none =>
          match value.asU64 with
          | some u => .ok (trimTrailingZeros (u : Rat))
          | none =>
              match value.asStr with
              | some s =>
                  match coerceNumber.parseF64 s with
                  | some parsed => .ok (trimTrailingZeros parsed)
                  | none => (coerceNumber value).map trimTrailingZeros
              | none => (coerceNumber value).map trimTrailingZeros

/-- Model of `FormatStrategy` of `ParsedSpecifier` (`builtin_printf`). -/
inductive FormatStrategy where
  | percentLiteral
  | stringLike
  | integer
  | float
  | fallback (specifier : Char)
deriving DecidableEq, Repr

/-- The strategy table of `ParsedSpecifier::parse`. -/
def specifierStrategy (next : Char) : FormatStrategy :=
  if next = '%' then .percentLiteral
  else if next = 's' ∨ next = 'v' then .stringLike
  else if next = 'd' ∨ next = 'b' ∨ next = 'o' ∨ next = 'x' ∨ next = 'X' then
    .integer
  else if next = 'f' ∨ next = 'g' ∨ next = 'e' ∨ next = 'E' then .float
  else .fallback next

/-- Model of `ParsedSpecifier::parse` over the remaining format characters. -/
def parsedSpecifierParse (chars : List Char) :
    Except Err (FormatStrategy × List Char) :=
  match chars with
  | [] => .error (.render "incomplete format specifier")
  | next :: rest => .ok (specifierStrategy next, rest)

/-- Model of `ParsedSpecifier::needs_argument`. -/
def needsArgument (strategy : FormatStrategy) : Bool :=
  match strategy with
  | .percentLiteral => false
  | _ => true

/-- Model of `ParsedSpecifier::format`. -/
def specifierFormat (strategy : FormatStrategy) (arg : Option Value) :
    Except Err String :=
  match strategy with
  | .percentLiteral => .ok "%"
  | .stringLike =>
      match arg with
      | some value => .ok (valueToString value)
      | none => .error (.render "not enough arguments for printf")
  | .integer =>
      match arg with
      | some value => formatInteger value
      | none => .error (.render "not enough arguments for printf")
  | .float =>
      match arg with
      | some value => formatFloat value
      | none => .error (.render "not enough arguments for printf")
  | .fallback specifier =>
      match arg with
      | some value =>
          .ok ("%" ++ String.singleton specifier ++ valueToString value)
      | none => .error (.render "not enough arguments for printf")

/-- Model of `append_extra_args`. -/
def appendExtraArgs (output : String) (extraArgs : List Value) : String :=
  match extraArgs with
  | [] => output
  | first :: rest =>
      rest.foldl (fun acc arg => acc ++ " " ++ valueToString arg)
        (output ++ valueToString first)

/-- The character loop of `builtin_printf`: plain characters are copied,
`%` starts a specifier (parsed by `ParsedSpecifier::parse`, whose single
consumed character is matched in place so that the recursion is
structural). -/
def printfLoop (args : List Value) (chars : List Char) (argIndex : Nat)
    (output : String) : Except Err String :=
  match chars with
  | [] => .ok (appendExtraArgs output (args.drop argIndex))
  | ch :: tail =>
      if ch = '%' then
        match tail with
        | [] => .error (.render "incomplete format specifier")
        | next :: rest =>
            let strategy := specifierStrategy next
            if needsArgument strategy then
              match args.get? argIndex with
              | none => .error (.render "not enough arguments for printf")
              | some arg => do
                  let formatted ← specifierFormat strategy (some arg)
                  printfLoop args rest (argIndex + 1) (output ++ formatted)
            else do
              let formatted ← specifierFormat strategy none
              printfLoop args rest argIndex (output ++ formatted)
      else printfLoop args tail argIndex (output.push ch)

/-- Model of `builtin_printf`. -/
def builtinPrintf (args : List Value) : Except Err Value :=
  match args with
  | [] => .error (.render "printf expects format string")
  | first :: _ =>
      match first.asStr with
      | some format => (printfLoop args format.data 1 "").map .str
      | none => .error (.render "printf expects format string as first argument")

/-! ## Sprig arity validators (`lithos-sprig/src/functions/mod.rs`) -/

/-- Model of `expect_min_args`. -/
def expectMinArgs (name : String) (args : List Value) (min : Nat) :
    Except Err Unit :=
  if args.length < min then
    .error (.render (name ++ " expected at least " ++ toString min ++
      " arguments, got " ++ toString args.length))
  else .ok ()

/-- Model of `expect_exact_args`. -/
def expectExactArgs (name : String) (args : List Value) (expected : Nat) :
    Except Err Unit :=
  if args.length ≠ expected then
    .error (.render (name ++ " expected " ++ toString expected ++ " argument" ++
      (if expected = 1 then "" else "s") ++ ", got " ++ toString args.length))
  else .ok ()

/-! ## Statement-level definitions used by the theorems

These definitions formalise the wording of the claims (case splits,
substring tests, expected outputs); they are compared against the embedded
source functions, never used inside them. -/

/-- Substring test, for claims quoting error-message fragments. -/
def strContains (haystack needle : String) : Bool :=
  (List.range (haystack.data.length + 1)).any
    (fun i => needle.data.isPrefixOf (haystack.data.drop i))

/-- Concatenation of `n` copies of `s`. -/
def repeatStr (s : String) (n : Nat) : String :=
  match n with
  | 0 => ""
  | m + 1 => s ++ repeatStr s m

/-- The claim's case split for `range`: the number of elements the then
block is rendered for, or `none` when the else branch must be taken
(non-collection, empty array, empty map). -/
def rangeThenCount : Value → Option Nat
  | .arr items => if items.isEmpty then none else some items.length
  | .obj entries => if entries.isEmpty then none else some entries.length
  | _ => none

/-- The claim's wording "non-map, non-array value". -/
def isContainer : Value → Bool
  | .arr _ => true
  | .obj _ => true
  | _ => false

/-- Per-entry output of the `range`-over-map observation template: the key
followed by the rendered value, in the map's own entry order. -/
def entriesOutput : List (String × Value) → String
  | [] => ""
  | (k, v) :: rest => k ++ valueToString v ++ entriesOutput rest

/-- Argument demand of a `printf` format string: the number of specifiers
that consume an argument.  `none` when a trailing `%` occurs (the specifier
parse itself fails) or when a numeric (`%d`/`%f` family) specifier occurs —
numeric formatting of an unsuitable argument can fail before the argument
count is exhausted, so the amended claim is stated over the specifiers
whose formatting is total. -/
def printfSafeNeeds (chars : List Char) : Option Nat :=
  match chars with
  | [] => some 0
  | ch :: tail =>
      if ch = '%' then
        match tail with
        | [] => none
        | next :: rest =>
            match specifierStrategy next with
            | .percentLiteral => printfSafeNeeds rest
            | .stringLike => (printfSafeNeeds rest).map (· + 1)
            | .fallback _ => (printfSafeNeeds rest).map (· + 1)
            | _ => none
      else printfSafeNeeds tail

/-- The claim's stack invariant: both context stacks are non-empty. -/
def stacksNonEmpty (ctx : EvalContext) : Prop :=
  0 < ctx.stack.length ∧ 0 < ctx.vars.length

/-! ### Observation templates and registries for the claims -/

/-- Model of `{{range .}}T{{else}}E{{end}}` (or without the else block): marker
template observing which branch of `render_range` runs, and how often. -/
def rangeMarkerTemplate (elseBlock : Option Block) : Template :=
  { name := "range-marker"
    source := ""
    ast := .mk [.rangeNode (.mk none [.mk (.field []) []])
      (.mk [.text "T"]) elseBlock]
    functions := .empty }

/-- The pipeline `$k, $v := .` of the map-order observation template. -/
def rangeKVPipeline : Pipeline :=
  .mk (some ⟨.declare, ["$k", "$v"]⟩) [.mk (.field []) []]

/-- The body `{{$k}}{{$v}}` of the map-order observation template. -/
def rangeKVBody : Block :=
  .mk [.action (.mk none [.mk (.var "$k") []]),
       .action (.mk none [.mk (.var "$v") []])]

/-- Model of `{{range $k, $v := .}}{{$k}}{{$v}}{{end}}`: prints each key and value in
iteration order. -/
def rangeEntriesTemplate : Template :=
  { name := "range-entries"
    source := ""
    ast := .mk [.rangeNode rangeKVPipeline rangeKVBody none]
    functions := .empty }

/-- The pipeline of `{{ f (g x) }}`. -/
def nestedCallPipeline (f g : String) (x : Expression) : Pipeline :=
  .mk none [.mk (.identifier f) [.pipelineExpr (.mk none [.mk (.identifier g) [x]])]]

/-- The pipeline of `{{ x | g | f }}`. -/
def pipedPipeline (f g : String) (x : Expression) : Pipeline :=
  .mk none [.mk x [], .mk (.identifier g) [], .mk (.identifier f) []]

/-- The template `{{ f (g x) }}`. -/
def nestedCallTemplate (reg : FunctionRegistry) (f g : String) (x : Expression) :
    Template :=
  { name := "nested", source := "", ast := .mk [.action (nestedCallPipeline f g x)]
    functions := reg }

/-- The template `{{ x | g | f }}`. -/
def pipedTemplate (reg : FunctionRegistry) (f g : String) (x : Expression) :
    Template :=
  { name := "piped", source := "", ast := .mk [.action (pipedPipeline f g x)]
    functions := reg }

/-- A pure unary helper: returns its single argument, arity error
otherwise. -/
def unaryEcho (args : List Value) : Except Err Value :=
  match args with
  | [v] => .ok v
  | _ => .error (.render "unary helper expects one argument")

/-- A registry binding the pure unary helpers `f` and `g`. -/
def pipeEquivRegistry : FunctionRegistry :=
  ⟨[("f", unaryEcho), ("g", unaryEcho)]⟩

/-! ## Supporting lemmas -/

@[simp] theorem exceptOkBind {ε α β : Type} (a : α) (f : α → Except ε β) :
    (Except.ok a >>= f : Except ε β) = f a := rfl

@[simp] theorem exceptErrorBind {ε α β : Type} (e : ε) (f : α → Except ε β) :
    (Except.error e >>= f : Except ε β) = Except.error e := rfl

@[simp] theorem exceptMapOk {ε α β : Type} (a : α) (f : α → β) :
    (Except.ok a : Except ε α).map f = Except.ok (f a) := rfl

@[simp] theorem exceptMapError {ε α β : Type} (e : ε) (f : α → β) :
    (Except.error e : Except ε α).map f = Except.error e := rfl

@[simp] theorem exceptPureEq {ε α : Type} (a : α) :
    (pure a : Except ε α) = Except.ok a := rfl

/-- Popping directly after pushing restores the context (both stacks were
non-empty to begin with). -/
theorem popScope_pushScope (ctx : EvalContext) (value : Value)
    (hstack : ctx.stack ≠ []) (hvars : ctx.vars ≠ []) :
    (ctx.pushScope value).popScope = ctx := by
  cases ctx with
  | mk stack root vars functions =>
      simp only [EvalContext.pushScope, EvalContext.popScope, EvalContext.newScope]
      congr 1
      · cases stack with
        | nil => exact absurd rfl hstack
        | cons a as => simp
      · cases vars with
        | nil => exact absurd rfl hvars
        | cons a as => simp

/-- Replacing the entry of key `k` does not change any entry's key
membership test. -/
theorem replace_keyBeq (k k' : String) (v : Value) (p : String × Value) :
    (((if p.1 == k then (k, v) else p)).1 == k') = (p.1 == k') := by
  by_cases hp : (p.1 == k) = true
  · have : p.1 = k := by simpa using hp
    simp [hp, this]
  · simp [hp]

theorem find?_replace_self (m : List (String × Value)) (k : String) (v : Value)
    (hm : m.any (fun p => p.1 == k) = true) :
    (m.map (fun p => if p.1 == k then (k, v) else p)).find? (fun p => p.1 == k) =
      some (k, v) := by
  induction m with
  | nil => simp at hm
  | cons p rest ih =>
      by_cases hp : (p.1 == k) = true
      · have hf : (if p.1 == k then (k, v) else p) = (k, v) := if_pos hp
        rw [List.map_cons, hf]
        exact List.find?_cons_of_pos _ (by simp)
      · have hr : rest.any (fun p => p.1 == k) = true := by
          simpa [List.any_cons, hp] using hm
        have hf : (if p.1 == k then (k, v) else p) = p := if_neg hp
        rw [List.map_cons, hf]
        exact (List.find?_cons_of_neg
          (p := fun (q : String × Value) => q.1 == k) _ hp).trans (ih hr)

theorem find?_replace_ne (m : List (String × Value)) (k k' : String) (v : Value)
    (h : k' ≠ k) :
    (m.map (fun p => if p.1 == k then (k, v) else p)).find? (fun p => p.1 == k') =
      m.find? (fun p => p.1 == k') := by
  induction m with
  | nil => rfl
  | cons p rest ih =>
      by_cases hp' : (p.1 == k') = true
      · have hpe : p.1 = k' := by simpa using hp'
        have hpk : ¬ (p.1 == k) = true := by
          rw [hpe]
          simpa using fun e => h e
        have hf : (if p.1 == k then (k, v) else p) = p := if_neg hpk
        rw [List.map_cons, hf,
          List.find?_cons_of_pos (p := fun (q : String × Value) => q.1 == k') _ hp',
          List.find?_cons_of_pos (p := fun (q : String × Value) => q.1 == k') _ hp']
      · by_cases hpk : (p.1 == k) = true
        · have hf : (if p.1 == k then (k, v) else p) = (k, v) := if_pos hpk
          have hkk' : ¬ ((k, v).1 == k') = true := by
            simpa using fun e => h e.symm
          rw [List.map_cons, hf,
            List.find?_cons_of_neg (p := fun (q : String × Value) => q.1 == k') _ hkk',
            List.find?_cons_of_neg (p := fun (q : String × Value) => q.1 == k') _ hp']
          exact ih
        · have hf : (if p.1 == k then (k, v) else p) = p := if_neg hpk
          rw [List.map_cons, hf,
            List.find?_cons_of_neg (p := fun (q : String × Value) => q.1 == k') _ hp',
            List.find?_cons_of_neg (p := fun (q : String × Value) => q.1 == k') _ hp']
          exact ih

theorem any_replace (m : List (String × Value)) (k k' : String) (v : Value) :
    (m.map (fun p => if p.1 == k then (k, v) else p)).any (fun p => p.1 == k') =
      m.any (fun p => p.1 == k') := by
  induction m with
  | nil => rfl
  | cons p rest ih =>
      rw [List.map_cons, List.any_cons, List.any_cons, replace_keyBeq, ih]

theorem find?_appendSingle_self (m : List (String × Value)) (k : String)
    (v : Value) (hm : ¬ m.any (fun p => p.1 == k) = true) :
    (m ++ [(k, v)]).find? (fun p => p.1 == k) = some (k, v) := by
  induction m with
  | nil => exact List.find?_cons_of_pos _ (by simp)
  | cons p rest ih =>
      have hp : ¬ (p.1 == k) = true := by
        intro hb; exact hm (by simp [List.any_cons, hb])
      have hr : ¬ rest.any (fun p => p.1 == k) = true := by
        intro hc; exact hm (by simp [List.any_cons, hc])
      rw [List.cons_append,
        List.find?_cons_of_neg (p := fun (q : String × Value) => q.1 == k) _ hp]
      exact ih hr

/-- Looking up the key just inserted. -/
theorem mapGet_mapInsert_self (m : List (String × Value)) (k : String)
    (v : Value) : mapGet (mapInsert m k v) k = some v := by
  unfold mapInsert
  by_cases h : m.any (fun p => p.1 == k) = true
  · rw [if_pos h]
    unfold mapGet
    rw [find?_replace_self m k v h]
    rfl
  · rw [if_neg h]
    unfold mapGet
    rw [find?_appendSingle_self m k v h]
    rfl

/-- Looking up a different key after an insert. -/
theorem mapGet_mapInsert_ne (m : List (String × Value)) (k k' : String)
    (v : Value) (h : k' ≠ k) : mapGet (mapInsert m k v) k' = mapGet m k' := by
  unfold mapInsert
  by_cases hm : m.any (fun p => p.1 == k) = true
  · rw [if_pos hm]
    unfold mapGet
    rw [find?_replace_ne m k k' v h]
  · rw [if_neg hm]
    unfold mapGet
    rw [List.find?_append]
    have h1 : [(k, v)].find? (fun p => p.1 == k') = none := by
      rw [List.find?_cons_of_neg (p := fun (q : String × Value) => q.1 == k') _
        (by simpa using fun e => h e.symm)]
      rfl
    rw [h1]
    cases hb : m.find? (fun p => p.1 == k') <;> rfl

/-- Key membership after an insert. -/
theorem anyKey_mapInsert (m : List (String × Value)) (k k' : String)
    (v : Value) :
    (mapInsert m k v).any (fun p => p.1 == k') =
      (k == k' || m.any (fun p => p.1 == k')) := by
  unfold mapInsert
  by_cases hm : m.any (fun p => p.1 == k) = true
  · rw [if_pos hm, any_replace]
    by_cases hkk : (k == k') = true
    · have hk : k = k' := by simpa using hkk
      subst hk
      simp [hm, hkk]
    · simp [(by simpa using hkk : ¬ (k == k') = true)]
  · rw [if_neg hm, List.any_append]
    simp only [List.any_cons, List.any_nil, Bool.or_false]
    cases hb : m.any (fun p => p.1 == k') <;> cases hkk : (k == k') <;>
      simp [hb, hkk, BEq.comm]

/-! ## Claim C2 -/

/-- C2 (counterexample): the claim says every bundled helper rejects a
wrong argument count with an error naming the helper and the observed
count.  `builtin_eq` called with three arguments does not fail at all — it
compares the first two and succeeds — and its under-supply error message
`eq expects two arguments` does not contain the observed count `1`. -/
theorem claim_C2_counterexample :
    builtinEq [Value.num (JNum.int 1), Value.num (JNum.int 2),
      Value.num (JNum.int 3)] = Except.ok (Value.bool false) ∧
    builtinEq [Value.null] = Except.error (Err.render "eq expects two arguments") ∧
    strContains "eq expects two arguments" "1" = false := by
  refine ⟨rfl, rfl, ?_⟩
  decide

/-- C2 (amended): the sprig arity validators `expect_exact_args` /
`expect_min_args` reject wrong argument counts with a render error naming
the helper and the observed count; the stock `eq`/`ne` reject only fewer
than two arguments, with a message naming the helper but not the count, and
silently accept extra arguments, comparing the first two. -/
theorem claim_C2_amended (name : String) (args argsm argslt : List Value)
    (expected minCount : Nat) (a b : Value) (rest : List Value)
    (hne : args.length ≠ expected) (hmin : argsm.length < minCount)
    (hlt : argslt.length < 2) :
    expectExactArgs name args expected =
      .error (.render (name ++ " expected " ++ toString expected ++ " argument" ++
        (if expected = 1 then "" else "s") ++ ", got " ++ toString args.length)) ∧
    expectMinArgs name argsm minCount =
      .error (.render (name ++ " expected at least " ++ toString minCount ++
        " arguments, got " ++ toString argsm.length)) ∧
    builtinEq argslt = .error (.render "eq expects two arguments") ∧
    builtinNe argslt = .error (.render "eq expects two arguments") ∧
    builtinEq (a :: b :: rest) = .ok (.bool (valueEq a b)) ∧
    builtinNe (a :: b :: rest) = .ok (.bool (!valueEq a b)) := by
  have heq : builtinEq argslt = .error (.render "eq expects two arguments") := by
    match argslt, hlt with
    | [], _ => rfl
    | [x], _ => rfl
  refine ⟨?_, ?_, heq, ?_, rfl, rfl⟩
  · simp [expectExactArgs, hne]
  · simp [expectMinArgs, hmin]
  · simp [builtinNe, heq]

/-- Witness for `claim_C2_amended` at `name = "upper"`, one argument
supplied where two are expected. -/
theorem claim_C2_amended_witness :
    ([Value.null] : List Value).length ≠ 2 ∧
    ([] : List Value).length < 1 ∧
    ([Value.null] : List Value).length < 2 ∧
    (expectExactArgs "upper" [Value.null] 2 =
        .error (.render ("upper" ++ " expected " ++ toString 2 ++ " argument" ++
          (if 2 = 1 then "" else "s") ++ ", got " ++
          toString ([Value.null] : List Value).length)) ∧
      expectMinArgs "upper" [] 1 =
        .error (.render ("upper" ++ " expected at least " ++ toString 1 ++
          " arguments, got " ++ toString ([] : List Value).length)) ∧
      builtinEq [Value.null] = .error (.render "eq expects two arguments") ∧
      builtinNe [Value.null] = .error (.render "eq expects two arguments") ∧
      builtinEq [Value.null, Value.bool true] =
        .ok (.bool (valueEq Value.null (Value.bool true))) ∧
      builtinNe [Value.null, Value.bool true] =
        .ok (.bool (!valueEq Value.null (Value.bool true)))) :=
  ⟨by decide, by decide, by decide,
    claim_C2_amended "upper" [Value.null] [] [Value.null] 2 1 Value.null
      (Value.bool true) [] (by decide) (by decide) (by decide)⟩

/-! ## Claim C5 -/

/-- C5 (counterexample): the claim says an array segment that parses as an
unsigned decimal integer indexes the array, yielding null when out of
range, and only a non-integer segment errors.  The segment
`18446744073709551616` (2^64) is an unsigned decimal integer and out of
range of the one-element array, yet `project_field_segment` returns a
render error because `str::parse::<usize>` overflows. -/
theorem claim_C5_counterexample :
    projectFieldSegment (Value.arr [Value.null]) "18446744073709551616" =
      Except.error
        (Err.render "array index must be integer, got 18446744073709551616") := by
  rfl

/-- C5 (amended): map projection yields the entry or null; array projection
indexes when the segment parses as an unsigned 64-bit integer (optional
`+`, digits, at most `2^64 - 1`), yielding null when the index is out of
the array's range, and errors when the segment fails that parse
(non-numeric or overflowing); any non-map, non-array value errors. -/
theorem claim_C5_amended (entries : List (String × Value)) (key : String)
    (list : List Value) (goodSeg badSeg anySeg : String) (n : Nat) (v : Value)
    (hparse : parseUsize goodSeg = some n)
    (hbad : parseUsize badSeg = none)
    (hv : isContainer v = false) :
    projectFieldSegment (.obj entries) key = .ok ((mapGet entries key).getD .null) ∧
    projectFieldSegment (.arr list) goodSeg = .ok ((list.get? n).getD .null) ∧
    projectFieldSegment (.arr list) badSeg =
      .error (.render ("array index must be integer, got " ++ badSeg)) ∧
    projectFieldSegment v anySeg =
      .error (.render ("cannot access field " ++ anySeg ++
        " on non-container value")) := by
  refine ⟨rfl, ?_, ?_, ?_⟩
  · simp [projectFieldSegment, hparse]
  · simp [projectFieldSegment, hbad]
  · cases v with
    | arr items => simp [isContainer] at hv
    | obj entries => simp [isContainer] at hv
    | null => rfl
    | bool b => rfl
    | num m => rfl
    | str t => rfl

/-- Witness for `claim_C5_amended`: one-entry map, one-element array with
segments `0` (in range), `1` (out of range is also covered by the same
conclusion), `x` (unparsable), and a string base value. -/
theorem claim_C5_amended_witness :
    parseUsize "7" = some 7 ∧
    parseUsize "x" = none ∧
    isContainer (Value.str "s") = false ∧
    (projectFieldSegment (.obj [("a", Value.bool true)]) "a" =
        .ok ((mapGet [("a", Value.bool true)] "a").getD .null) ∧
      projectFieldSegment (.arr [Value.str "only"]) "7" =
        .ok ((([Value.str "only"] : List Value).get? 7).getD .null) ∧
      projectFieldSegment (.arr [Value.str "only"]) "x" =
        .error (.render ("array index must be integer, got " ++ "x")) ∧
      projectFieldSegment (Value.str "s") "f" =
        .error (.render ("cannot access field " ++ "f" ++
          " on non-container value"))) :=
  ⟨rfl, rfl, rfl,
    claim_C5_amended [("a", Value.bool true)] "a" [Value.str "only"] "7" "x" "f"
      7 (Value.str "s") rfl rfl rfl⟩

/-! ## Claim C7 -/

/-- C7: rendering is deterministic — in this functional embedding two runs
of `Template::render` on the same template and data are the same value, and
the output depends only on the AST, the registry and the data (the `name`
and `source` labels are never read). -/
theorem claim_C7 (t : Template) (data : Value) (name1 name2 source1 source2 :
    String) (ast : Block) (functions : FunctionRegistry) :
    t.render data = t.render data ∧
    Template.render ⟨name1, source1, ast, functions⟩ data =
      Template.render ⟨name2, source2, ast, functions⟩ data :=
  ⟨rfl, rfl⟩

/-! ## Claim C9 (counterexample) -/

/-- C9 (counterexample): `printf "%s"` with no further arguments fails with
message `not enough arguments for printf`, which does not contain the
spec's quoted substring `printf: not enough arguments`. -/
theorem claim_C9_counterexample :
    builtinPrintf [Value.str "%s"] =
      Except.error (Err.render "not enough arguments for printf") ∧
    strContains "not enough arguments for printf"
      "printf: not enough arguments" = false := by
  refine ⟨rfl, ?_⟩
  decide

/-! ## Claim C10 -/

/-- C10: the dot-scope stack and the variable-scope stack are non-empty
after construction and preserved by `push_scope`/`pop_scope`; `pop_scope`
never removes the bottom element, so the root datum and the root variable
scope (holding `$`) stay available. -/
theorem claim_C10 (data : Value) (reg : FunctionRegistry) (ctx : EvalContext)
    (value : Value) (h : stacksNonEmpty ctx) :
    stacksNonEmpty (EvalContext.new data reg) ∧
    (EvalContext.new data reg).stack.getLast? = some data ∧
    (EvalContext.new data reg).vars.getLast? = some [("$", data)] ∧
    stacksNonEmpty (ctx.pushScope value) ∧
    (ctx.pushScope value).stack.getLast? = ctx.stack.getLast? ∧
    (ctx.pushScope value).vars.getLast? = ctx.vars.getLast? ∧
    stacksNonEmpty ctx.popScope ∧
    ctx.popScope.stack.getLast? = ctx.stack.getLast? ∧
    ctx.popScope.vars.getLast? = ctx.vars.getLast? := by
  obtain ⟨h1, h2⟩ := h
  have consLast : ∀ {α : Type} (a : α) (l : List α), l ≠ [] →
      (a :: l).getLast? = l.getLast? := by
    intro α a l hl
    cases l with
    | nil => exact absurd rfl hl
    | cons b bs => exact List.getLast?_cons_cons
  have tailLast : ∀ {α : Type} (l : List α), 1 < l.length →
      l.tail.getLast? = l.getLast? := by
    intro α l hl
    cases l with
    | nil => simp at hl
    | cons a as =>
        cases as with
        | nil => simp at hl
        | cons b bs => simp [List.getLast?_cons_cons]
  have hne : ctx.stack ≠ [] := by
    intro he; rw [he] at h1; simp at h1
  have hvne : ctx.vars ≠ [] := by
    intro he; rw [he] at h2; simp at h2
  refine ⟨⟨by simp [EvalContext.new], by simp [EvalContext.new]⟩,
    by simp [EvalContext.new], by simp [EvalContext.new],
    ⟨?_, ?_⟩, ?_, ?_, ⟨?_, ?_⟩, ?_, ?_⟩
  · simp [EvalContext.pushScope]
  · simp [EvalContext.pushScope]
  · exact consLast value ctx.stack hne
  · exact consLast ctx.newScope ctx.vars hvne
  · by_cases hl : ctx.stack.length > 1 <;> simp [EvalContext.popScope, hl] <;>
      omega
  · by_cases hl : ctx.vars.length > 1 <;> simp [EvalContext.popScope, hl] <;>
      omega
  · by_cases hl : ctx.stack.length > 1
    · simp [EvalContext.popScope, hl, tailLast]
    · simp [EvalContext.popScope, hl]
  · by_cases hl : ctx.vars.length > 1
    · simp [EvalContext.popScope, hl, tailLast]
    · simp [EvalContext.popScope, hl]

/-- Witness for `claim_C10` at a freshly constructed context. -/
theorem claim_C10_witness :
    stacksNonEmpty (EvalContext.new Value.null FunctionRegistry.empty) ∧
    (stacksNonEmpty (EvalContext.new (Value.bool true) FunctionRegistry.empty) ∧
      (EvalContext.new (Value.bool true) FunctionRegistry.empty).stack.getLast? =
        some (Value.bool true) ∧
      (EvalContext.new (Value.bool true) FunctionRegistry.empty).vars.getLast? =
        some [("$", Value.bool true)] ∧
      stacksNonEmpty ((EvalContext.new Value.null
        FunctionRegistry.empty).pushScope (Value.str "v")) ∧
      ((EvalContext.new Value.null FunctionRegistry.empty).pushScope
        (Value.str "v")).stack.getLast? =
        (EvalContext.new Value.null FunctionRegistry.empty).stack.getLast? ∧
      ((EvalContext.new Value.null FunctionRegistry.empty).pushScope
        (Value.str "v")).vars.getLast? =
        (EvalContext.new Value.null FunctionRegistry.empty).vars.getLast? ∧
      stacksNonEmpty (EvalContext.new Value.null
        FunctionRegistry.empty).popScope ∧
      (EvalContext.new Value.null FunctionRegistry.empty).popScope.stack.getLast? =
        (EvalContext.new Value.null FunctionRegistry.empty).stack.getLast? ∧
      (EvalContext.new Value.null FunctionRegistry.empty).popScope.vars.getLast? =
        (EvalContext.new Value.null FunctionRegistry.empty).vars.getLast?) :=
  ⟨⟨by simp [EvalContext.new], by simp [EvalContext.new]⟩,
    claim_C10 (Value.bool true) FunctionRegistry.empty
      (EvalContext.new Value.null FunctionRegistry.empty) (Value.str "v")
      ⟨by simp [EvalContext.new], by simp [EvalContext.new]⟩⟩

/-! ## Claim C1 (counterexample) -/

/-- C1 (counterexample): the claim says the parser accepts `else if
<pipeline>`.  `classify_action` on the token sequence of `else if .b`
returns the parse error `else-if is not yet supported` instead. -/
theorem claim_C1_counterexample :
    classifyAction [TokenKind.keyword .elseKw, TokenKind.keyword .ifKw,
      TokenKind.dot, TokenKind.identifier "b"] =
      Except.error (Err.parse "else-if is not yet supported") := rfl

/-! ## Claim C9 (amended theorem) -/

/-- The missing-argument run of the `printf` loop: with a well-formed
format whose remaining argument demand exceeds the remaining supply, the
loop fails with `not enough arguments for printf`. -/
theorem printfLoop_missing (chars : List Char) :
    ∀ (args : List Value) (argIndex : Nat) (out : String) (n : Nat),
      printfSafeNeeds chars = some n → argIndex ≤ args.length →
      args.length < argIndex + n →
      printfLoop args chars argIndex out =
        .error (.render "not enough arguments for printf") := by
  induction chars using printfSafeNeeds.induct with
  | case1 =>
      intro args argIndex out n hn hle hlt
      simp [printfSafeNeeds] at hn
      omega
  | case2 =>
      intro args argIndex out n hn hle hlt
      simp [printfSafeNeeds] at hn
  | case3 c tail hstrat ih =>
      intro args argIndex out n hn hle hlt
      rw [printfSafeNeeds, if_pos rfl, hstrat] at hn
      simp only [printfLoop, if_pos rfl, hstrat, needsArgument,
        specifierFormat, exceptOkBind]
      exact ih args argIndex _ n hn hle hlt
  | case4 c tail hstrat ih =>
      intro args argIndex out n hn hle hlt
      rw [printfSafeNeeds, if_pos rfl, hstrat] at hn
      cases hrest : printfSafeNeeds tail with
      | none => rw [hrest] at hn; simp at hn
      | some m =>
          rw [hrest] at hn
          simp only [Option.map_some] at hn
          have hnm : n = m + 1 := by
            cases hn
            rfl
          simp only [printfLoop, if_pos rfl, hstrat, needsArgument]
          cases hh : args.get? argIndex with
          | none => rfl
          | some arg =>
              have hix : argIndex < args.length := by
                by_contra hc
                rw [List.get?_eq_none.mpr (by omega)] at hh
                exact Option.noConfusion hh
              simp only [specifierFormat, exceptOkBind]
              exact ih args (argIndex + 1) _ m hrest (by omega) (by omega)
  | case5 c tail specifier hstrat ih =>
      intro args argIndex out n hn hle hlt
      rw [printfSafeNeeds, if_pos rfl, hstrat] at hn
      cases hrest : printfSafeNeeds tail with
      | none => rw [hrest] at hn; simp at hn
      | some m =>
          rw [hrest] at hn
          simp only [Option.map_some] at hn
          have hnm : n = m + 1 := by
            cases hn
            rfl
          simp only [printfLoop, if_pos rfl, hstrat, needsArgument]
          cases hh : args.get? argIndex with
          | none => rfl
          | some arg =>
              have hix : argIndex < args.length := by
                by_contra hc
                rw [List.get?_eq_none.mpr (by omega)] at hh
                exact Option.noConfusion hh
              simp only [specifierFormat, exceptOkBind]
              exact ih args (argIndex + 1) _ m hrest (by omega) (by omega)
  | case6 c tail h1 h2 h3 =>
      intro args argIndex out n hn hle hlt
      rw [printfSafeNeeds, if_pos rfl] at hn
      cases hstrat : specifierStrategy c with
      | percentLiteral => exact absurd hstrat h1
      | stringLike => exact absurd hstrat h2
      | fallback sp => exact absurd hstrat (h3 sp)
      | integer => rw [hstrat] at hn; simp at hn
      | float => rw [hstrat] at hn; simp at hn
  | case7 c tail hch ih =>
      intro args argIndex out n hn hle hlt
      have hstep : printfSafeNeeds (c :: tail) = printfSafeNeeds tail := by
        rw [printfSafeNeeds.eq_def]
        exact if_neg hch
      rw [hstep] at hn
      have hloop : printfLoop args (c :: tail) argIndex out =
          printfLoop args tail argIndex (out.push c) := by
        rw [printfLoop.eq_def]
        exact if_neg hch
      rw [hloop]
      exact ih args argIndex _ n hn hle hlt

/-- C9 (amended): when the (total-formatting) argument demand of the format
string exceeds the supplied arguments, `builtin_printf` fails with a render
error whose message is `not enough arguments for printf` (the spec's quoted
substring `printf: not enough arguments` does not occur, see the
counterexample). -/
theorem claim_C9_amended (format : String) (restArgs : List Value) (n : Nat)
    (hneeds : printfSafeNeeds format.data = some n)
    (hshort : restArgs.length < n) :
    builtinPrintf (.str format :: restArgs) =
      .error (.render "not enough arguments for printf") := by
  simp only [builtinPrintf, Value.asStr]
  rw [printfLoop_missing format.data (.str format :: restArgs) 1 "" n hneeds
    (by simp) (by simp; omega)]
  rfl

/-- Witness for `claim_C9_amended`: `printf "%s %s" x` is one argument
short. -/
theorem claim_C9_amended_witness :
    printfSafeNeeds ("%s %s" : String).data = some 2 ∧
    ([Value.null] : List Value).length < 2 ∧
    builtinPrintf [Value.str "%s %s", Value.null] =
      .error (.render "not enough arguments for printf") :=
  ⟨by decide, by decide,
    claim_C9_amended "%s %s" [Value.null] 2 (by decide) (by decide)⟩

/-! ## Claim C4 -/

/-- Assignment via `=` updates the nearest enclosing scope that already holds
the name, leaving every other scope unchanged. -/
theorem setVariableIn_assign_nearest (name : String) (value : Value)
    (hname : name ≠ "$") :
    ∀ (pre : List Scope) (s : Scope) (post : List Scope),
      (∀ sc ∈ pre, sc.any (fun p => p.1 == name) = false) →
      s.any (fun p => p.1 == name) = true →
      setVariableIn (pre ++ s :: post) name .assign value =
        .ok (pre ++ mapInsert s name value :: post) := by
  intro pre
  induction pre with
  | nil =>
      intro s post hpre hs
      simp [setVariableIn, hname, hs]
  | cons sc pre' ih =>
      intro s post hpre hs
      have h1 : sc.any (fun p => p.1 == name) = false :=
        hpre sc (List.mem_cons_self sc pre')
      have h2 : ∀ sc' ∈ pre', sc'.any (fun p => p.1 == name) = false :=
        fun sc' hm => hpre sc' (List.mem_cons_of_mem sc hm)
      simp [setVariableIn, hname, h1, ih s post h2 hs]

/-- Assignment via `=` with the name in no scope fails with
`variable <name> not defined`. -/
theorem setVariableIn_assign_missing (name : String) (value : Value)
    (hname : name ≠ "$") :
    ∀ (scopes : List Scope),
      (∀ sc ∈ scopes, sc.any (fun p => p.1 == name) = false) →
      setVariableIn scopes name .assign value =
        .error (.render ("variable " ++ name ++ " not defined")) := by
  intro scopes
  induction scopes with
  | nil =>
      intro _
      simp [setVariableIn, hname]
  | cons sc rest ih =>
      intro hall
      have h1 : sc.any (fun p => p.1 == name) = false :=
        hall sc (List.mem_cons_self sc rest)
      have h2 : ∀ sc' ∈ rest, sc'.any (fun p => p.1 == name) = false :=
        fun sc' hm => hall sc' (List.mem_cons_of_mem sc hm)
      simp [setVariableIn, hname, h1, ih h2]

/-- C4: `$x = <pipeline>` updates the nearest enclosing scope already
containing `$x` (no new binding anywhere else); when no scope contains it,
the render error message is `variable $x not defined`; assigning to `$`
itself is always a render error. -/
theorem claim_C4 (name : String) (value : Value) (kind : BindingKind)
    (scopesD scopes pre post : List Scope) (s : Scope)
    (hname : name ≠ "$")
    (hpre : ∀ sc ∈ pre, sc.any (fun p => p.1 == name) = false)
    (hs : s.any (fun p => p.1 == name) = true)
    (hnone : ∀ sc ∈ scopes, sc.any (fun p => p.1 == name) = false) :
    setVariableIn scopesD "$" kind value =
      .error (.render "cannot assign to root variable") ∧
    setVariableIn (pre ++ s :: post) name .assign value =
      .ok (pre ++ mapInsert s name value :: post) ∧
    setVariableIn scopes name .assign value =
      .error (.render ("variable " ++ name ++ " not defined")) := by
  refine ⟨by rw [setVariableIn.eq_def]; simp, ?_, ?_⟩
  · exact setVariableIn_assign_nearest name value hname pre s post hpre hs
  · exact setVariableIn_assign_missing name value hname scopes hnone

/-- Witness for `claim_C4` at `name = "$v"`: the innermost of two scopes
lacks `$v`, the outer holds it; the missing case uses a root-only scope
stack; the root-assignment case uses the same stack. -/
theorem claim_C4_witness :
    ("$v" : String) ≠ "$" ∧
    (setVariableIn [[("$", Value.null)]] "$" .assign (Value.bool true) =
        .error (.render "cannot assign to root variable") ∧
      setVariableIn ([[("$", Value.null)]] ++
          [("$", Value.null), ("$v", Value.num (JNum.int 1))] ::
          ([] : List Scope)) "$v" .assign (Value.bool true) =
        .ok ([[("$", Value.null)]] ++
          mapInsert [("$", Value.null), ("$v", Value.num (JNum.int 1))] "$v"
            (Value.bool true) :: ([] : List Scope)) ∧
      setVariableIn [[("$", Value.null)]] "$v" .assign (Value.bool true) =
        .error (.render ("variable " ++ "$v" ++ " not defined"))) :=
  ⟨by decide,
    claim_C4 "$v" (Value.bool true) .assign [[("$", Value.null)]]
      [[("$", Value.null)]] [[("$", Value.null)]] []
      [("$", Value.null), ("$v", Value.num (JNum.int 1))]
      (by decide) (by decide) (by decide) (by decide)⟩

/-! ## Claim C1 (amended theorem) -/

/-- A pipeline without declarations binds nothing. -/
theorem applyBindings_none (ctx : EvalContext) (pipeline : Pipeline)
    (value : Value) (h : pipeline.declarations = none) :
    applyBindings ctx pipeline value = .ok ctx := by
  simp [applyBindings, h]

/-- The branch loop of `render_if` renders the first truthy else-if branch,
after all earlier branches evaluated falsy. -/
theorem renderElseIfBranches_first_truthy (ctx : EvalContext)
    (elseB : Option Block) (out : String) (br : ElseIfBranch) (bv : Value)
    (hbrd : br.pipeline.declarations = none)
    (hbv : evalPipeline ctx br.pipeline = .ok bv)
    (htrue : isTruthy bv = true) :
    ∀ (pre : List ElseIfBranch) (rest : List ElseIfBranch),
      (∀ b ∈ pre, b.pipeline.declarations = none ∧
        ∃ vb, evalPipeline ctx b.pipeline = .ok vb ∧ isTruthy vb = false) →
      renderElseIfBranches ctx (pre ++ br :: rest) elseB out =
        renderBlock ctx br.block out := by
  intro pre
  induction pre with
  | nil =>
      intro rest _
      cases br with
      | mk bp bb =>
          simp only [ElseIfBranch.pipeline] at hbrd hbv
          simp only [ElseIfBranch.block]
          simp [renderElseIfBranches, hbv, applyBindings_none ctx bp bv hbrd,
            htrue]
  | cons b pre' ih =>
      intro rest hpre
      obtain ⟨hd, vb, hvb, hfb⟩ := hpre b (List.mem_cons_self b pre')
      have hrest : ∀ b' ∈ pre', b'.pipeline.declarations = none ∧
          ∃ vb', evalPipeline ctx b'.pipeline = .ok vb' ∧
            isTruthy vb' = false :=
        fun b' hm => hpre b' (List.mem_cons_of_mem b hm)
      cases b with
      | mk bp bb =>
          simp only [ElseIfBranch.pipeline] at hd hvb
          simp [renderElseIfBranches, hvb, applyBindings_none ctx bp vb hd,
            hfb, ih rest hrest]

/-- C1 (amended): every action whose body starts with `else` followed by
further tokens — `else if <pipeline>` included — is rejected by the parser
with `else-if is not yet supported`; the evaluator nonetheless supports
else-if branches on an `IfNode`: with the main pipeline falsy, the first
truthy else-if branch (in order) is the one rendered. -/
theorem claim_C1_amended (t : TokenKind) (rest : List TokenKind)
    (ctx : EvalContext) (mainP : Pipeline) (thenB : Block)
    (pre rst : List ElseIfBranch) (br : ElseIfBranch) (elseB : Option Block)
    (out : String) (v0 bv : Value)
    (hmain : evalPipeline ctx mainP = .ok v0)
    (hfalse : isTruthy v0 = false)
    (hdecl : mainP.declarations = none)
    (hpre : ∀ b ∈ pre, b.pipeline.declarations = none ∧
      ∃ vb, evalPipeline ctx b.pipeline = .ok vb ∧ isTruthy vb = false)
    (hbrd : br.pipeline.declarations = none)
    (hbv : evalPipeline ctx br.pipeline = .ok bv)
    (htrue : isTruthy bv = true) :
    classifyAction (.keyword .elseKw :: t :: rest) =
      .error (.parse "else-if is not yet supported") ∧
    renderNode ctx (.ifNode mainP thenB (pre ++ br :: rst) elseB) out =
      renderBlock ctx br.block out := by
  constructor
  · simp [classifyAction]
  · simp only [renderNode, hmain, exceptOkBind,
      applyBindings_none ctx mainP v0 hdecl, hfalse, Bool.false_eq_true,
      if_false]
    exact renderElseIfBranches_first_truthy ctx elseB out br bv hbrd hbv htrue
      pre rst hpre

/-- Witness for `claim_C1_amended`: `{{if false}}…{{else if true}}B{{end}}`
renders the else-if block. -/
theorem claim_C1_amended_witness :
    evalPipeline (EvalContext.new Value.null FunctionRegistry.empty)
        (Pipeline.mk none [Command.mk (Expression.boolLiteral false) []]) =
      .ok (Value.bool false) ∧
    isTruthy (Value.bool false) = false ∧
    (Pipeline.mk none [Command.mk (Expression.boolLiteral false) []]).declarations
      = none ∧
    evalPipeline (EvalContext.new Value.null FunctionRegistry.empty)
        (ElseIfBranch.mk
          (Pipeline.mk none [Command.mk (Expression.boolLiteral true) []])
          (Block.mk [Node.text "B"])).pipeline = .ok (Value.bool true) ∧
    isTruthy (Value.bool true) = true ∧
    (classifyAction [TokenKind.keyword .elseKw, TokenKind.keyword .withKw] =
        .error (.parse "else-if is not yet supported") ∧
      renderNode (EvalContext.new Value.null FunctionRegistry.empty)
          (.ifNode (Pipeline.mk none [Command.mk (Expression.boolLiteral false) []])
            (Block.mk [Node.text "T"])
            ([] ++ (ElseIfBranch.mk
              (Pipeline.mk none [Command.mk (Expression.boolLiteral true) []])
              (Block.mk [Node.text "B"])) :: []) none) "" =
        renderBlock (EvalContext.new Value.null FunctionRegistry.empty)
          (ElseIfBranch.mk
            (Pipeline.mk none [Command.mk (Expression.boolLiteral true) []])
            (Block.mk [Node.text "B"])).block "") := by
  have h1 : evalPipeline (EvalContext.new Value.null FunctionRegistry.empty)
      (Pipeline.mk none [Command.mk (Expression.boolLiteral false) []]) =
      .ok (Value.bool false) := by
    simp [evalPipeline, evalCommand, evalCommandsFrom, resolveCommandTarget,
      evalExpression, EvalContext.new, FunctionRegistry.empty,
      FunctionRegistry.get, Command.args, Command.target]
  have h2 : evalPipeline (EvalContext.new Value.null FunctionRegistry.empty)
      (Pipeline.mk none [Command.mk (Expression.boolLiteral true) []]) =
      .ok (Value.bool true) := by
    simp [evalPipeline, evalCommand, evalCommandsFrom, resolveCommandTarget,
      evalExpression, EvalContext.new, FunctionRegistry.empty,
      FunctionRegistry.get, Command.args, Command.target]
  refine ⟨h1, rfl, rfl, h2, rfl, ?_⟩
  exact claim_C1_amended (TokenKind.keyword .withKw) []
    (EvalContext.new Value.null FunctionRegistry.empty)
    (Pipeline.mk none [Command.mk (Expression.boolLiteral false) []])
    (Block.mk [Node.text "T"]) [] []
    (ElseIfBranch.mk
      (Pipeline.mk none [Command.mk (Expression.boolLiteral true) []])
      (Block.mk [Node.text "B"])) none "" (Value.bool false) (Value.bool true)
    h1 rfl rfl (by intro b hb; simp at hb) rfl (by exact h2) rfl

/-! ## Claim C8 -/

/-- A pipeline's first command with an expression (or unregistered
identifier) target evaluates to the target's value. -/
theorem evalCommand_bare_target (ctx : EvalContext) (x : Expression)
    (hx : ∀ name, x = .identifier name → ctx.functions.get name = none) :
    evalCommand ctx (.mk x []) none = evalExpression ctx x := by
  cases x with
  | identifier name =>
      simp [evalCommand, resolveCommandTarget, Command.target, Command.args,
        hx name rfl]
  | field parts =>
      simp [evalCommand, resolveCommandTarget, Command.target, Command.args]
  | var name =>
      simp [evalCommand, resolveCommandTarget, Command.target, Command.args]
  | pipelineExpr p =>
      simp [evalCommand, resolveCommandTarget, Command.target, Command.args]
  | stringLiteral v =>
      simp [evalCommand, resolveCommandTarget, Command.target, Command.args]
  | numberLiteral t =>
      simp [evalCommand, resolveCommandTarget, Command.target, Command.args]
  | boolLiteral b =>
      simp [evalCommand, resolveCommandTarget, Command.target, Command.args]
  | nil =>
      simp [evalCommand, resolveCommandTarget, Command.target, Command.args]

/-- Pipe equivalence at the pipeline level: `f (g x)` and `x | g | f`
evaluate identically when `f`, `g` are registered and `x` does not itself
name a registered helper. -/
theorem pipeEquiv_evalPipeline (ctx : EvalContext) (f g : String)
    (x : Expression) (F G : Func)
    (hf : ctx.functions.get f = some F)
    (hg : ctx.functions.get g = some G)
    (hx : ∀ name, x = .identifier name → ctx.functions.get name = none) :
    evalPipeline ctx (nestedCallPipeline f g x) =
      evalPipeline ctx (pipedPipeline f g x) := by
  have hfirst := evalCommand_bare_target ctx x hx
  simp only [nestedCallPipeline, pipedPipeline, evalPipeline, hfirst]
  simp only [evalCommand, resolveCommandTarget, Command.target, Command.args,
    hf, hg, evalArgs, evalExpression, Pipeline.declarations, Option.isSome_none,
    Bool.false_eq_true, if_false, evalPipeline, evalCommandsFrom, hfirst]
  cases hevx : evalExpression ctx x with
  | error e => simp
  | ok vx =>
      simp only [exceptOkBind]
      cases hG : G [vx] with
      | error e => simp [hG]
      | ok w =>
          cases hF : F [w] with
          | error e => simp [hG, hF]
          | ok r => simp [hG, hF]

/-- C8 (amended): `{{ f (g x) }}` and `{{ x | g | f }}` render identically
for registered helpers `f`, `g` (pure by the helper model) and any argument
expression `x` that is not itself an identifier bound in the registry
(such an `x` is *called* as the first command of the piped form but
*evaluated as data* in the nested form — see the counterexample). -/
theorem claim_C8_amended (reg : FunctionRegistry) (f g : String)
    (x : Expression) (data : Value) (F G : Func)
    (hf : reg.get f = some F) (hg : reg.get g = some G)
    (hx : ∀ name, x = .identifier name → reg.get name = none) :
    (nestedCallTemplate reg f g x).render data =
      (pipedTemplate reg f g x).render data := by
  have hpipe := pipeEquiv_evalPipeline (EvalContext.new data reg) f g x F G
    hf hg hx
  simp only [Template.render, nestedCallTemplate, pipedTemplate, renderBlock,
    renderNodes, renderNode, hpipe]
  cases hr : evalPipeline (EvalContext.new data reg) (pipedPipeline f g x) with
  | error e => simp
  | ok v =>
      simp [applyBindings, Pipeline.declarations, nestedCallPipeline,
        pipedPipeline]

/-- Witness for `claim_C8_amended`: `f`, `g` the registered unary echo
helpers and `x` a string literal. -/
theorem claim_C8_amended_witness :
    pipeEquivRegistry.get "f" = some unaryEcho ∧
    pipeEquivRegistry.get "g" = some unaryEcho ∧
    (nestedCallTemplate pipeEquivRegistry "f" "g"
        (Expression.stringLiteral "s")).render Value.null =
      (pipedTemplate pipeEquivRegistry "f" "g"
        (Expression.stringLiteral "s")).render Value.null :=
  ⟨rfl, rfl,
    claim_C8_amended pipeEquivRegistry "f" "g" (Expression.stringLiteral "s")
      Value.null unaryEcho unaryEcho rfl rfl
      (by intro name h; exact Expression.noConfusion h)⟩

/-- C8 (counterexample): with pure unary helpers `f`, `g` and the argument
expression `x = f` (an identifier that is also a registered helper name),
`{{ f (g f) }}` reads the data key `"f"` and renders `data`, while
`{{ f | g | f }}` calls the helper `f` with zero arguments and fails — the
two forms are not equivalent for every expression `x`. -/
theorem claim_C8_counterexample :
    (nestedCallTemplate pipeEquivRegistry "f" "g"
        (Expression.identifier "f")).render
      (Value.obj [("f", Value.str "data")]) = Except.ok "data" ∧
    (pipedTemplate pipeEquivRegistry "f" "g"
        (Expression.identifier "f")).render
      (Value.obj [("f", Value.str "data")]) =
      Except.error (Err.render "unary helper expects one argument") := by
  constructor
  · simp [nestedCallTemplate, Template.render, renderBlock, renderNodes,
      renderNode, nestedCallPipeline, evalPipeline, evalCommand, evalArgs,
      evalCommandsFrom, resolveCommandTarget, Command.target, Command.args,
      Pipeline.declarations, EvalContext.new, pipeEquivRegistry,
      FunctionRegistry.get, unaryEcho, evalExpression, resolveIdentifier,
      mapGet, applyBindings, valueToString]
  · simp [pipedTemplate, Template.render, renderBlock, renderNodes,
      renderNode, pipedPipeline, evalPipeline, evalCommand, evalArgs,
      evalCommandsFrom, resolveCommandTarget, Command.target, Command.args,
      Pipeline.declarations, EvalContext.new, pipeEquivRegistry,
      FunctionRegistry.get, unaryEcho, evalExpression, resolveIdentifier,
      mapGet, applyBindings, valueToString]

/-! ## Claim C6 -/

/-- The array loop of `render_range` over a one-text-node then block
appends the marker once per element and restores the context. -/
theorem renderArrayItems_text (txt : String) (p : Pipeline)
    (hp : p.declarations = none) :
    ∀ (items : List Value) (ctx : EvalContext) (index : Nat) (out : String),
      ctx.stack ≠ [] → ctx.vars ≠ [] →
      renderArrayItems ctx p (.mk [.text txt]) items index out =
        .ok (ctx, out ++ repeatStr txt items.length) := by
  intro items
  induction items with
  | nil =>
      intro ctx index out h1 h2
      simp [renderArrayItems, repeatStr]
  | cons item rest ih =>
      intro ctx index out h1 h2
      have hassign : assignRangeBindings ctx p (some (.num (.int index))) item =
          .ok ctx := by
        simp [assignRangeBindings, hp]
      have hrb : renderBlock (ctx.pushScope item) (.mk [.text txt]) out =
          .ok (ctx.pushScope item, out ++ txt) := by
        simp [renderBlock, renderNodes, renderNode]
      simp only [renderArrayItems, hassign, exceptOkBind, hrb]
      rw [popScope_pushScope ctx item h1 h2, ih ctx (index + 1) (out ++ txt) h1 h2]
      simp [String.append_assoc, repeatStr]

/-- The map loop of `render_range` over a one-text-node then block appends
the marker once per entry and restores the context. -/
theorem renderObjEntries_text (txt : String) (p : Pipeline)
    (hp : p.declarations = none) :
    ∀ (entries : List (String × Value)) (ctx : EvalContext) (out : String),
      ctx.stack ≠ [] → ctx.vars ≠ [] →
      renderObjEntries ctx p (.mk [.text txt]) entries out =
        .ok (ctx, out ++ repeatStr txt entries.length) := by
  intro entries
  induction entries with
  | nil =>
      intro ctx out h1 h2
      simp [renderObjEntries, repeatStr]
  | cons entry rest ih =>
      intro ctx out h1 h2
      obtain ⟨key, val⟩ := entry
      have hassign : assignRangeBindings ctx p (some (.str key)) val =
          .ok ctx := by
        simp [assignRangeBindings, hp]
      have hrb : renderBlock (ctx.pushScope val) (.mk [.text txt]) out =
          .ok (ctx.pushScope val, out ++ txt) := by
        simp [renderBlock, renderNodes, renderNode]
      simp only [renderObjEntries, hassign, exceptOkBind, hrb]
      rw [popScope_pushScope ctx val h1 h2, ih ctx (out ++ txt) h1 h2]
      simp [String.append_assoc, repeatStr]

/-- C6: with marker blocks `T` (then) and `E` (else), a `range` node
renders `T` once per element of a non-empty array or map and never renders
`E`; an empty array, empty map, or any non-collection value renders `E`
exactly once (or nothing when no else block exists) and never renders `T`
— exactly one branch runs. -/
theorem claim_C6 (v : Value) :
    (rangeMarkerTemplate (some (.mk [.text "E"]))).render v =
      .ok (match rangeThenCount v with
        | some n => repeatStr "T" n
        | none => "E") ∧
    (rangeMarkerTemplate none).render v =
      .ok (match rangeThenCount v with
        | some n => repeatStr "T" n
        | none => "") := by
  have hp : (Pipeline.mk none [Command.mk (Expression.field []) []]).declarations
      = none := rfl
  have hstack : (EvalContext.new v FunctionRegistry.empty).stack ≠ [] := by
    simp [EvalContext.new]
  have hvars : (EvalContext.new v FunctionRegistry.empty).vars ≠ [] := by
    simp [EvalContext.new]
  have heval : evalPipeline (EvalContext.new v FunctionRegistry.empty)
      (Pipeline.mk none [Command.mk (Expression.field []) []]) = .ok v := by
    simp [evalPipeline, evalCommand, evalCommandsFrom, resolveCommandTarget,
      Command.target, Command.args, evalExpression, resolveField,
      EvalContext.new]
  constructor
  · cases v with
    | arr items =>
        cases items with
        | nil =>
            simp [Template.render, rangeMarkerTemplate, renderBlock,
              renderNodes, renderNode, predeclareBindings, Pipeline.declarations,
              heval, renderRangeElse, assignRangeBindings, rangeThenCount]
        | cons item rest =>
            simp only [Template.render, rangeMarkerTemplate, renderBlock,
              renderNodes, renderNode, predeclareBindings, Pipeline.declarations,
              heval, exceptOkBind, List.isEmpty_cons, Bool.false_eq_true,
              if_false,
              renderArrayItems_text "T"
                (Pipeline.mk none [Command.mk (Expression.field []) []]) hp
                (item :: rest) (EvalContext.new (Value.arr (item :: rest))
                  FunctionRegistry.empty) 0 "" (by simp [EvalContext.new])
                (by simp [EvalContext.new])]
            simp [rangeThenCount, String.empty_append]
    | obj entries =>
        cases entries with
        | nil =>
            simp [Template.render, rangeMarkerTemplate, renderBlock,
              renderNodes, renderNode, predeclareBindings, Pipeline.declarations,
              heval, renderRangeElse, assignRangeBindings, rangeThenCount]
        | cons entry rest =>
            simp only [Template.render, rangeMarkerTemplate, renderBlock,
              renderNodes, renderNode, predeclareBindings, Pipeline.declarations,
              heval, exceptOkBind, List.isEmpty_cons, Bool.false_eq_true,
              if_false,
              renderObjEntries_text "T"
                (Pipeline.mk none [Command.mk (Expression.field []) []]) hp
                (entry :: rest) (EvalContext.new (Value.obj (entry :: rest))
                  FunctionRegistry.empty) "" (by simp [EvalContext.new])
                (by simp [EvalContext.new])]
            simp [rangeThenCount, String.empty_append]
    | null =>
        simp [Template.render, rangeMarkerTemplate, renderBlock, renderNodes,
          renderNode, predeclareBindings, Pipeline.declarations, heval,
          renderRangeElse, assignRangeBindings, rangeThenCount]
    | bool b =>
        simp [Template.render, rangeMarkerTemplate, renderBlock, renderNodes,
          renderNode, predeclareBindings, Pipeline.declarations, heval,
          renderRangeElse, assignRangeBindings, rangeThenCount]
    | num n =>
        simp [Template.render, rangeMarkerTemplate, renderBlock, renderNodes,
          renderNode, predeclareBindings, Pipeline.declarations, heval,
          renderRangeElse, assignRangeBindings, rangeThenCount]
    | str t =>
        simp [Template.render, rangeMarkerTemplate, renderBlock, renderNodes,
          renderNode, predeclareBindings, Pipeline.declarations, heval,
          renderRangeElse, assignRangeBindings, rangeThenCount]
  · cases v with
    | arr items =>
        cases items with
        | nil =>
            simp [Template.render, rangeMarkerTemplate, renderBlock,
              renderNodes, renderNode, predeclareBindings, Pipeline.declarations,
              heval, renderRangeElse, assignRangeBindings, rangeThenCount]
        | cons item rest =>
            simp only [Template.render, rangeMarkerTemplate, renderBlock,
              renderNodes, renderNode, predeclareBindings, Pipeline.declarations,
              heval, exceptOkBind, List.isEmpty_cons, Bool.false_eq_true,
              if_false,
              renderArrayItems_text "T"
                (Pipeline.mk none [Command.mk (Expression.field []) []]) hp
                (item :: rest) (EvalContext.new (Value.arr (item :: rest))
                  FunctionRegistry.empty) 0 "" (by simp [EvalContext.new])
                (by simp [EvalContext.new])]
            simp [rangeThenCount, String.empty_append]
    | obj entries =>
        cases entries with
        | nil =>
            simp [Template.render, rangeMarkerTemplate, renderBlock,
              renderNodes, renderNode, predeclareBindings, Pipeline.declarations,
              heval, renderRangeElse, assignRangeBindings, rangeThenCount]
        | cons entry rest =>
            simp only [Template.render, rangeMarkerTemplate, renderBlock,
              renderNodes, renderNode, predeclareBindings, Pipeline.declarations,
              heval, exceptOkBind, List.isEmpty_cons, Bool.false_eq_true,
              if_false,
              renderObjEntries_text "T"
                (Pipeline.mk none [Command.mk (Expression.field []) []]) hp
                (entry :: rest) (EvalContext.new (Value.obj (entry :: rest))
                  FunctionRegistry.empty) "" (by simp [EvalContext.new])
                (by simp [EvalContext.new])]
            simp [rangeThenCount, String.empty_append]
    | null =>
        simp [Template.render, rangeMarkerTemplate, renderBlock, renderNodes,
          renderNode, predeclareBindings, Pipeline.declarations, heval,
          renderRangeElse, assignRangeBindings, rangeThenCount]
    | bool b =>
        simp [Template.render, rangeMarkerTemplate, renderBlock, renderNodes,
          renderNode, predeclareBindings, Pipeline.declarations, heval,
          renderRangeElse, assignRangeBindings, rangeThenCount]
    | num n =>
        simp [Template.render, rangeMarkerTemplate, renderBlock, renderNodes,
          renderNode, predeclareBindings, Pipeline.declarations, heval,
          renderRangeElse, assignRangeBindings, rangeThenCount]
    | str t =>
        simp [Template.render, rangeMarkerTemplate, renderBlock, renderNodes,
          renderNode, predeclareBindings, Pipeline.declarations, heval,
          renderRangeElse, assignRangeBindings, rangeThenCount]

/-! ## Claim C3 -/

/-- Rendering the body `{{$k}}{{$v}}` appends the values of `$k` (a string)
and `$v` and leaves the context unchanged. -/
theorem renderBlock_kvBody (ctx : EvalContext) (k : String) (val : Value)
    (out : String)
    (h1 : resolveVariable ctx "$k" = .str k)
    (h2 : resolveVariable ctx "$v" = val) :
    renderBlock ctx rangeKVBody out = .ok (ctx, out ++ k ++ valueToString val) := by
  simp [renderBlock, renderNodes, renderNode, rangeKVBody, evalPipeline,
    evalCommand, evalCommandsFrom, resolveCommandTarget, Command.target,
    Command.args, evalExpression, h1, h2, applyBindings, Pipeline.declarations,
    valueToString, String.append_assoc]

/-- The map loop of `render_range` for `{{range $k, $v := .}}{{$k}}{{$v}}`:
each entry is visited in list (insertion) order, binding `$k` to the key
and `$v` to the value, and the outputs concatenate in that order. -/
theorem renderObjEntries_kv :
    ∀ (entries : List (String × Value)) (ctx : EvalContext) (out : String)
      (s : Scope) (r : List Scope),
      ctx.stack ≠ [] → ctx.vars = s :: r →
      ∃ ctx', renderObjEntries ctx rangeKVPipeline rangeKVBody entries out =
        .ok (ctx', out ++ entriesOutput entries) := by
  intro entries
  induction entries with
  | nil =>
      intro ctx out s r hstack hvars
      exact ⟨ctx, by simp [renderObjEntries, entriesOutput]⟩
  | cons entry rest ih =>
      intro ctx out s r hstack hvars
      obtain ⟨k, val⟩ := entry
      set s1 : Scope := mapInsert (mapInsert s "$k" (.str k)) "$v" val with hs1
      have hassign : assignRangeBindings ctx rangeKVPipeline
          (some (.str k)) val = .ok { ctx with vars := s1 :: r } := by
        simp [assignRangeBindings, rangeKVPipeline, Pipeline.declarations,
          EvalContext.setVariable, hvars, setVariableIn, hs1]
      set ctx1 : EvalContext := { ctx with vars := s1 :: r } with hctx1
      have hrk : resolveVariable (ctx1.pushScope val) "$k" = .str k := by
        simp only [resolveVariable, EvalContext.pushScope, EvalContext.newScope]
        rw [if_neg (by decide)]
        rw [List.find?_cons_of_neg _ (by simp)]
        rw [List.find?_cons_of_pos _ (by
          simp only [hs1, anyKey_mapInsert]
          simp)]
        show (mapGet (mapInsert (mapInsert s "$k" (Value.str k)) "$v" val)
          "$k").getD Value.null = Value.str k
        rw [mapGet_mapInsert_ne _ _ _ _ (by decide), mapGet_mapInsert_self]
        rfl
      have hrv : resolveVariable (ctx1.pushScope val) "$v" = val := by
        simp only [resolveVariable, EvalContext.pushScope, EvalContext.newScope]
        rw [if_neg (by decide)]
        rw [List.find?_cons_of_neg _ (by simp)]
        rw [List.find?_cons_of_pos _ (by
          simp only [hs1, anyKey_mapInsert]
          simp)]
        show (mapGet (mapInsert (mapInsert s "$k" (Value.str k)) "$v" val)
          "$v").getD Value.null = val
        rw [mapGet_mapInsert_self]
        rfl
      have hrb := renderBlock_kvBody (ctx1.pushScope val) k val out hrk hrv
      have hpop : (ctx1.pushScope val).popScope = ctx1 :=
        popScope_pushScope ctx1 val (by simpa [hctx1] using hstack)
          (by simp [hctx1])
      obtain ⟨ctx', hrec⟩ := ih ctx1 (out ++ k ++ valueToString val) s1 r
        (by simpa [hctx1] using hstack) (by simp [hctx1])
      refine ⟨ctx', ?_⟩
      simp only [renderObjEntries, hassign, exceptOkBind, hrb, hpop, hrec]
      simp [entriesOutput, String.append_assoc]

/-- C3: `{{range $k, $v := .}}{{$k}}{{$v}}{{end}}` over a non-empty map
renders once per entry, in the map's own (insertion) order, with `$k` bound
to each key and `$v` to each value. -/
theorem claim_C3 (entries : List (String × Value)) (h : entries ≠ []) :
    rangeEntriesTemplate.render (.obj entries) = .ok (entriesOutput entries) := by
  have heval : ∀ ctx : EvalContext, ctx.stack = [Value.obj entries] →
      evalPipeline ctx rangeKVPipeline = .ok (.obj entries) := by
    intro ctx hst
    simp [evalPipeline, rangeKVPipeline, evalCommand, evalCommandsFrom,
      resolveCommandTarget, Command.target, Command.args, evalExpression,
      resolveField, hst]
  cases entries with
  | nil => exact absurd rfl h
  | cons entry rest =>
      simp only [Template.render, rangeEntriesTemplate, renderBlock,
        renderNodes, renderNode]
      have hpre : predeclareBindings
          (EvalContext.new (.obj (entry :: rest)) FunctionRegistry.empty)
          rangeKVPipeline =
          { EvalContext.new (.obj (entry :: rest)) FunctionRegistry.empty with
            vars := [[("$", .obj (entry :: rest)), ("$k", .null), ("$v", .null)]] } := by
        simp [predeclareBindings, rangeKVPipeline, Pipeline.declarations,
          EvalContext.new]
      rw [hpre]
      rw [heval _ (by simp [EvalContext.new])]
      simp only [exceptOkBind, List.isEmpty_cons, Bool.false_eq_true, if_false]
      obtain ⟨ctx', hrec⟩ := renderObjEntries_kv (entry :: rest)
        { EvalContext.new (.obj (entry :: rest)) FunctionRegistry.empty with
          vars := [[("$", .obj (entry :: rest)), ("$k", .null), ("$v", .null)]] }
        "" [("$", .obj (entry :: rest)), ("$k", .null), ("$v", .null)] []
        (by simp [EvalContext.new]) rfl
      rw [hrec]
      simp

/-- Witness for `claim_C3`: a two-entry map, keys in non-sorted order. -/
theorem claim_C3_witness :
    ([("b", Value.null), ("a", Value.bool true)] :
      List (String × Value)) ≠ [] ∧
    rangeEntriesTemplate.render
        (.obj [("b", Value.null), ("a", Value.bool true)]) =
      .ok (entriesOutput [("b", Value.null), ("a", Value.bool true)]) :=
  ⟨by simp,
    claim_C3 [("b", Value.null), ("a", Value.bool true)] (by simp)⟩

end Gotmpl
